import Mathlib

/-!
# Verification of the shapeio textual codec

A shallow embedding of the `shapeio` Python library (decoder.py, encoder.py,
shape.py, shapeio.py): a bidirectional codec between MSTS/ORTS shape-file
text and an in-memory record tree.

Modelling conventions:
* text is modelled as `List Char`; Python `str` values as `String`;
* Python `float` is modelled as the exact rational `ℚ` (decimal literals are
  taken at face value; formatting follows the `%.6g` rules applied to the
  exact rational value);
* each regular expression of the source is transliterated into an explicit
  character-level matcher; where a greedy character class is followed by a
  token disjoint from the class (the usual case in these patterns) the
  greedy run is a plain `span`;
* fallible parsing returns `Except PErr`; the constructors of `PErr` name
  the distinct `raise` sites of the source.
-/

namespace Shapeio

/-- Whitespace characters recognised by the regex `\s` class and by
`str.strip()` in the ASCII range (the source only ever meets ASCII
whitespace). -/
def isWs (c : Char) : Bool :=
  c == ' ' || c == '\t' || c == '\n' || c == '\r' || c == '\x0b' || c == '\x0c'

/-- `str.strip()` on the left. -/
def stripL (s : List Char) : List Char := s.dropWhile isWs

/-- `str.strip()`: drop whitespace from both ends. -/
def pyStrip (s : List Char) : List Char :=
  (stripL ((stripL s).reverse)).reverse

/-- ASCII model of `str.lower()` (the codec only lowercases hex digits and
keywords, all ASCII). -/
def pyLower (c : Char) : Char :=
  if 'A' ≤ c && c ≤ 'Z' then Char.ofNat (c.toNat + 32) else c

def lowerAll (s : List Char) : List Char := s.map pyLower

/-- Characters matched by `[0-9a-fA-F]`. -/
def isHexDigit (c : Char) : Bool :=
  c.isDigit || ('a' ≤ c && c ≤ 'f') || ('A' ≤ c && c ≤ 'F')

/-- Characters matched by `\w` (ASCII part): letters, digits, underscore. -/
def isWordChar (c : Char) : Bool :=
  c.isDigit || ('a' ≤ c && c ≤ 'z') || ('A' ≤ c && c ≤ 'Z') || c == '_'

/-- Characters matched by the numeric-fragment class `[-+eE\d\.]`. -/
def isNumChar (c : Char) : Bool :=
  c.isDigit || c == '-' || c == '+' || c == 'e' || c == 'E' || c == '.'

/-- Error kinds; one constructor per family of `raise` sites in the source
(decoder.py raises `ValueError` with a distinguishing message, encoder.py's
`serialize` dies on an unbound name). -/
inductive PErr where
  | headerNotFound (block : String)
  | malformedBlock (block : String)
  | unbalanced (block : String)
  | invalidHeader (block : String)
  | countMismatch (block : String) (expected found : Nat)
  | invalidFormat (kind : String)
  | emptyValue (kind : String)
  | unknownVariant (suffix : String)
  | arityMismatch (variant : String) (got : Nat)
  | nameError (name : String)
  deriving DecidableEq, Repr

instance {ε α : Type} [DecidableEq ε] [DecidableEq α] : DecidableEq (Except ε α) :=
  fun a b =>
  match a, b with
  | .error e, .error e' =>
      if h : e = e' then .isTrue (by rw [h])
      else .isFalse (by intro hh; cases hh; exact h rfl)
  | .ok v, .ok v' =>
      if h : v = v' then .isTrue (by rw [h])
      else .isFalse (by intro hh; cases hh; exact h rfl)
  | .error _, .ok _ => .isFalse (by intro hh; cases hh)
  | .ok _, .error _ => .isFalse (by intro hh; cases hh)

/-! ## Primitive codecs (decoder.py `_IntParser`, `_FloatParser`,
`_StrParser`, `_HexParser`; encoder.py `_IntSerializer`, `_FloatSerializer`,
`_StrSerializer`, `_HexSerializer`) -/

/-- Value of a digit string (all characters assumed decimal digits). -/
def digitsVal (l : List Char) : Nat :=
  l.foldl (fun acc c => 10 * acc + (c.toNat - '0'.toNat)) 0

/-- `_IntParser.parse`: `fullmatch` of `-?\d+` on the stripped fragment,
then `int(...)`. -/
def intParse (s : List Char) : Except PErr Int :=
  let t := pyStrip s
  match t with
  | '-' :: ds =>
      if ds ≠ [] && ds.all (·.isDigit) then .ok (-(digitsVal ds : Int))
      else .error (.invalidFormat "int")
  | ds =>
      if ds ≠ [] && ds.all (·.isDigit) then .ok ((digitsVal ds : Int))
      else .error (.invalidFormat "int")

/-- `fullmatch` of the float pattern
`[-+]?(?:\d*\.\d+|\d+)(?:[eE][-+]?\d+)?` together with the exact rational
value of the decimal literal (`float(...)` idealised to `ℚ`). -/
def floatVal? (t : List Char) : Option ℚ :=
  -- optional sign
  let (sgn, t) : ℚ × List Char :=
    match t with
    | '-' :: r => (-1, r)
    | '+' :: r => (1, r)
    | r => (1, r)
  -- mantissa: \d*\.\d+ | \d+
  let ip := t.takeWhile (·.isDigit)
  let t' := t.dropWhile (·.isDigit)
  let mant? : Option (ℚ × List Char) :=
    match t' with
    | '.' :: r =>
        let fp := r.takeWhile (·.isDigit)
        let r' := r.dropWhile (·.isDigit)
        if fp = [] then none
        else some (((digitsVal ip : ℚ) + (digitsVal fp : ℚ) / (10 ^ fp.length : ℚ)), r')
    | r => if ip = [] then none else some ((digitsVal ip : ℚ), r)
  match mant? with
  | none => none
  | some (m, rest) =>
      match rest with
      | [] => some (sgn * m)
      | e :: r =>
          if e = 'e' ∨ e = 'E' then
            let (esgn, r) : Bool × List Char :=
              match r with
              | '-' :: rr => (true, rr)
              | '+' :: rr => (false, rr)
              | rr => (false, rr)
            if r ≠ [] && r.all (·.isDigit) then
              let ex := digitsVal r
              some (sgn * m * (if esgn then (1 : ℚ) / 10 ^ ex else 10 ^ ex))
            else none
          else none

/-- `_FloatParser.parse`. -/
def floatParse (s : List Char) : Except PErr ℚ :=
  match floatVal? (pyStrip s) with
  | some q => .ok q
  | none => .error (.invalidFormat "float")

/-- `_StrParser.parse`: `fullmatch` of `\w+`. -/
def strParse (s : List Char) : Except PErr (List Char) :=
  let t := pyStrip s
  if t ≠ [] && t.all isWordChar then .ok t else .error (.invalidFormat "str")

/-- `_HexParser.parse`: `fullmatch` of `[0-9a-fA-F]{8}`, result lowercased. -/
def hexParse (s : List Char) : Except PErr (List Char) :=
  let t := pyStrip s
  if t.length = 8 && t.all isHexDigit then .ok (lowerAll t)
  else .error (.invalidFormat "hex")

/-- Decimal digits of `n`, most significant first (`['0']` for `0`). -/
def natDigitsAux : Nat → Nat → List Char
  | 0, _ => []
  | fuel + 1, n =>
      if n < 10 then [Char.ofNat (48 + n)]
      else natDigitsAux fuel (n / 10) ++ [Char.ofNat (48 + n % 10)]

def natDigits (n : Nat) : List Char := natDigitsAux (n + 1) n

/-- Remove trailing `'0'` characters (used on fractional parts, as `%g`
does). -/
def dropTrailingZeros (l : List Char) : List Char :=
  (l.reverse.dropWhile (· == '0')).reverse

/-- `⌊log₁₀ n⌋` for `n ≥ 1` (and `0` for `n = 0`), by fuelled structural
recursion so that closed instances reduce. -/
def natLog10Aux : Nat → Nat → Nat
  | 0, _ => 0
  | fuel + 1, n => if n < 10 then 0 else natLog10Aux fuel (n / 10) + 1

def natLog10 (n : Nat) : Nat := natLog10Aux n n

/-- `⌊log₁₀ q⌋` for a positive rational: the unique `e` with
`10^e ≤ q < 10^(e+1)`. -/
def qLog10 (q : ℚ) : Int :=
  let n := q.num.natAbs
  let d := q.den
  let e0 : Int := (natLog10 n : Int) - (natLog10 d : Int)
  if (10 : ℚ) ^ e0 ≤ q then e0 else e0 - 1

/-- Round to the nearest integer, ties to even (the rounding used by
Python's float formatting, applied here to the exact rational). -/
def roundHalfEven (q : ℚ) : Int :=
  let f := ⌊q⌋
  let r := q - f
  if r < 1 / 2 then f
  else if 1 / 2 < r then f + 1
  else if f % 2 = 0 then f else f + 1

/-- Fixed-notation assembly of `%g` (`-4 ≤ X < 6`): the 6 rounded digits
`ds` with the decimal point placed after position `X + 1`, trailing
fractional zeros stripped. -/
def g6Fixed (ds : List Char) (e : Int) : List Char :=
  if 0 ≤ e then
    let ip := ds.take (e.toNat + 1)
    let fp := dropTrailingZeros (ds.drop (e.toNat + 1))
    ip ++ (if fp = [] then [] else '.' :: fp)
  else
    '0' :: '.' :: dropTrailingZeros (List.replicate (-(e + 1)).toNat '0' ++ ds)

/-- Scientific-notation assembly of `%g`: `d.ddddd` mantissa (trailing
zeros stripped) and a signed, at-least-two-digit exponent. -/
def g6Sci (ds : List Char) (e : Int) : List Char :=
  match ds with
  | [] => ['0']
  | d :: rest =>
      let fp := dropTrailingZeros rest
      let eds0 := natDigits e.natAbs
      let eds := if eds0.length < 2 then '0' :: eds0 else eds0
      (d :: (if fp = [] then [] else '.' :: fp)) ++ 'e' :: (if e < 0 then '-' else '+') :: eds

/-- Model of `f"{value:.6g}"` applied to the exact rational value: round to
6 significant digits, then use fixed notation when the decimal exponent `X`
satisfies `-4 ≤ X < 6` and scientific notation otherwise, stripping
trailing fractional zeros. -/
def formatG6 (x : ℚ) : String :=
  if x = 0 then "0"
  else
    let sgnStr : List Char := if x < 0 then ['-'] else []
    let a := |x|
    let e0 := qLog10 a
    let scaled := a * (10 : ℚ) ^ (5 - e0)
    let m0 := roundHalfEven scaled
    let me : Int × Int := if m0 = 10 ^ 6 then ((10 ^ 5 : Int), e0 + 1) else (m0, e0)
    let ds := natDigits me.1.toNat
    String.mk (sgnStr ++ (if -4 ≤ me.2 ∧ me.2 < 6 then g6Fixed ds me.2 else g6Sci ds me.2))

/-- `_IntSerializer.serialize` = `str(value)`. -/
def intSerialize (i : Int) : String := toString i

/-- `_FloatSerializer.serialize` = `f"{value:.6g}"`. -/
def floatSerialize (x : ℚ) : String := formatG6 x

/-! ## Regex transliteration toolkit

Each Python pattern of decoder.py is transliterated into an anchored
matcher `List Char → Option (captures × List Char)` returning the captured
groups and the text following the match.  `re.search` is the first
position (left to right) at which the anchored matcher succeeds;
`re.match` anchors at the start; `re.fullmatch` additionally requires the
rest to be empty; `finditer` collects non-overlapping matches left to
right.  Greedy character-class runs whose follow set is disjoint from the
class are plain `span`s; the two places where the source's patterns
genuinely need backtracking (`\S+` before `\(` in the matrix pattern, and
the lazy groups `(.+?)` / `.*?`) get dedicated scanners. -/

/-- Match a literal, optionally case-insensitively (`re.IGNORECASE`). -/
def eatLit (ci : Bool) : List Char → List Char → Option (List Char)
  | [], s => some s
  | _, [] => none
  | l :: ls, c :: cs =>
      if (if ci then pyLower c == pyLower l else c == l) then eatLit ci ls cs
      else none

/-- `\s+`: at least one whitespace character, then greedily all of them. -/
def eatWsPlus : List Char → Option (List Char)
  | [] => none
  | c :: r => if isWs c then some (r.dropWhile isWs) else none

/-- A single expected character. -/
def eatChar (ch : Char) : List Char → Option (List Char)
  | [] => none
  | c :: r => if c == ch then some r else none

/-- A greedy nonempty character-class run (`[...]+`). -/
def eatClassPlus (p : Char → Bool) (s : List Char) : Option (List Char × List Char) :=
  let tok := s.takeWhile p
  if tok = [] then none else some (tok, s.dropWhile p)

/-- `-?\d+` as a token. -/
def eatIntTok : List Char → Option (List Char × List Char)
  | '-' :: r => (eatClassPlus (·.isDigit) r).map (fun (t, rest) => ('-' :: t, rest))
  | r => eatClassPlus (·.isDigit) r

/-- `-?\d+(?:\.\d+)?` as a token (the fraction is only consumed when a
digit follows the dot, as the optional regex group requires). -/
def eatSNumTok (s : List Char) : Option (List Char × List Char) := do
  let (ip, r) ← eatIntTok s
  match r with
  | '.' :: r' =>
      match eatClassPlus (·.isDigit) r' with
      | some (fp, r'') => some (ip ++ '.' :: fp, r'')
      | none => some (ip, r)
  | _ => some (ip, r)

/-- A hex run of exactly 8 characters (`[0-9a-fA-F]{8}` whose follow set is
disjoint from the class). -/
def eatHex8 (s : List Char) : Option (List Char × List Char) :=
  let tok := s.takeWhile isHexDigit
  if tok.length = 8 then some (tok, s.dropWhile isHexDigit) else none

/-- `re.search`: first position at which the anchored matcher succeeds,
with that position. -/
def searchAux (m : List Char → Option α) (i : Nat) : List Char → Option (Nat × α)
  | [] => (m []).map (fun a => (i, a))
  | c :: r =>
      match m (c :: r) with
      | some a => some (i, a)
      | none => searchAux m (i + 1) r

def search (m : List Char → Option α) (s : List Char) : Option (Nat × α) :=
  searchAux m 0 s

/-- Turn an anchored matcher into a `finditer`-style matcher returning the
matched text itself together with the remainder. -/
def withTok (m : List Char → Option (γ × List Char)) (s : List Char) :
    Option (List Char × List Char) :=
  (m s).map (fun (_, rest) => (s.take (s.length - rest.length), rest))

/-- `finditer`: non-overlapping matches, scanning left to right. -/
def findIterAux (m : List Char → Option (List Char × List Char)) :
    Nat → List Char → List (List Char)
  | 0, _ => []
  | fuel + 1, s =>
      match m s with
      | some (tok, rest) =>
          if tok.isEmpty then
            match s with
            | [] => []
            | _ :: r => findIterAux m fuel r
          else tok :: findIterAux m fuel rest
      | none =>
          match s with
          | [] => []
          | _ :: r => findIterAux m fuel r

def findIter (m : List Char → Option (List Char × List Char)) (s : List Char) :
    List (List Char) :=
  findIterAux m (s.length + 1) s

/-- Candidate splits for a greedy `\S+` group followed by more pattern:
try the maximal non-whitespace run first, then give characters back one at
a time (the run must stay nonempty), exactly as the regex engine
backtracks. -/
def shrinkAux (k : List Char → List Char → Option β) :
    Nat → List Char → List Char → Option β
  | 0, _, _ => none
  | fuel + 1, run, rest =>
      match k run rest with
      | some b => some b
      | none =>
          match run.reverse with
          | [] => none
          | c :: rr =>
              if rr = [] then none
              else shrinkAux k fuel rr.reverse (c :: rest)

/-- `(\S+)` followed by continuation `k` (which receives the group and the
rest). -/
def eatNonWsGroup (k : List Char → List Char → Option β) (s : List Char) : Option β :=
  let run := s.takeWhile (fun c => !isWs c)
  let rest := s.dropWhile (fun c => !isWs c)
  if run = [] then none else shrinkAux k (run.length + 1) run rest

/-- The lazy tail `(.+?)\s*\)` of the one-string patterns
(`named_shader`, `named_filter_mode`, `image`): scan for the earliest `)`
such that the content before it splits as `\s*` · nonempty-no-newline ·
`\s*`; returns the raw group content (before `strip`) and the rest. -/
def contentFeasible (content : List Char) : Bool :=
  content ≠ [] &&
    (let core := pyStrip content
     if core = [] then content.any (· ≠ '\n') else !core.contains '\n')

def findCloseAux : Nat → List Char → List Char → Option (List Char × List Char)
  | 0, _, _ => none
  | _ + 1, _, [] => none
  | fuel + 1, accRev, c :: r =>
      if c = ')' then
        if contentFeasible accRev.reverse then some (accRev.reverse, r)
        else findCloseAux fuel (c :: accRev) r
      else findCloseAux fuel (c :: accRev) r

def findClose (s : List Char) : Option (List Char × List Char) :=
  findCloseAux (s.length + 1) [] s

/-- The lazy `.*?\)` of the `prim_state` pattern: consume minimal
non-newline characters up to a `)` after which the continuation succeeds;
on continuation failure the `)` is absorbed and scanning continues. -/
def lazyThruAux (k : List Char → Option β) : Nat → List Char → Option β
  | 0, _ => none
  | _ + 1, [] => none
  | fuel + 1, c :: r =>
      if c = ')' then
        match k r with
        | some b => some b
        | none => lazyThruAux k fuel r
      else if c = '\n' then none
      else lazyThruAux k fuel r

def lazyThru (k : List Char → Option β) (s : List Char) : Option β :=
  lazyThruAux k (s.length + 1) s

/-- Balanced-parenthesis scan of `_Parser._find_block`: starting at the
block's opening parenthesis, walk a depth counter and return the relative
index of the closing parenthesis that returns the depth to zero. -/
def parenScanAux (depth : Int) : List Char → Option Nat
  | [] => none
  | c :: r =>
      let d := if c = '(' then depth + 1 else if c = ')' then depth - 1 else depth
      if c = ')' ∧ d = 0 then some 0
      else (parenScanAux d r).map (· + 1)

/-- `_Parser._find_header_start_idx`: the pattern
`{block_name}\s*\(\s*\d+` with `re.IGNORECASE`. -/
def headerMatch (name : List Char) (s : List Char) : Option Unit :=
  match eatLit true name s with
  | none => none
  | some s =>
  match eatChar '(' (s.dropWhile isWs) with
  | none => none
  | some s =>
  match eatClassPlus (·.isDigit) (s.dropWhile isWs) with
  | none => none
  | some _ => some ()

/-- `_Parser._find_block`: locate the header, find the following `(`, and
take the balanced span. -/
def findBlock (name : String) (text : List Char) : Except PErr (List Char) :=
  match search (headerMatch name.data) text with
  | none => .error (.headerNotFound name)
  | some (i, _) =>
      let t := text.drop i
      match t.findIdx? (· = '(') with
      | none => .error (.malformedBlock name)
      | some k =>
          match parenScanAux 0 (t.drop k) with
          | none => .error (.unbalanced name)
          | some j => .ok (t.take (k + j + 1))

/-- `_Parser._parse_block`. -/
def parseBlock (name : String) (p : List Char → Except PErr α) (text : List Char) :
    Except PErr α := do
  let block ← findBlock name text
  p block

/-! ## Data model (shape.py)

Python `float` fields are modelled as `ℚ`; `Optional[int]` as
`Option Int`.  `SubObject` and `Animation` are carried by the `Shape`
record but never constructed by the decoder nor rendered by the encoder
(their grammar is left unimplemented in the source), so they are modelled
as opaque placeholder types. -/

structure ShapeHeader where
  flags1 : String
  flags2 : String
  deriving DecidableEq, Repr

structure Vector where
  x : ℚ
  y : ℚ
  z : ℚ
  deriving DecidableEq, Repr

structure Point where
  x : ℚ
  y : ℚ
  z : ℚ
  deriving DecidableEq, Repr

structure UVPoint where
  u : ℚ
  v : ℚ
  deriving DecidableEq, Repr

structure Colour where
  a : ℚ
  r : ℚ
  g : ℚ
  b : ℚ
  deriving DecidableEq, Repr

structure Matrix where
  name : String
  ax : ℚ
  ay : ℚ
  az : ℚ
  bx : ℚ
  by' : ℚ
  bz : ℚ
  cx : ℚ
  cy : ℚ
  cz : ℚ
  dx : ℚ
  dy : ℚ
  dz : ℚ
  deriving DecidableEq, Repr

structure VolumeSphere where
  vector : Vector
  radius : ℚ
  deriving DecidableEq, Repr

structure Texture where
  image_index : Int
  filter_mode : Int
  mipmap_lod_bias : ℚ
  border_colour : String
  deriving DecidableEq, Repr

structure LightMaterial where
  flags : String
  diff_colour_index : Int
  amb_colour_index : Int
  spec_colour_index : Int
  emissive_colour_index : Int
  spec_power : ℚ
  deriving DecidableEq, Repr

/-- The closed variant set of `UVOp` subclasses of shape.py. -/
inductive UVOp where
  | copy (texture_address_mode source_uv_index : Int)
  | reflectmapfull (texture_address_mode : Int)
  | reflectmap (texture_address_mode : Int)
  | uniformscale (texture_address_mode source_uv_index unknown3 unknown4 : Int)
  | nonuniformscale (texture_address_mode source_uv_index unknown3 unknown4 : Int)
  deriving DecidableEq, Repr

structure LightModelCfg where
  flags : String
  uv_ops : List UVOp
  deriving DecidableEq, Repr

structure VtxState where
  flags : String
  matrix_index : Int
  light_material_index : Int
  light_model_cfg_index : Int
  light_flags : String
  matrix2_index : Option Int
  deriving DecidableEq, Repr

structure PrimState where
  name : String
  flags : String
  shader_index : Int
  texture_indices : List Int
  z_bias : ℚ
  vtx_state_index : Int
  alpha_test_mode : Int
  light_cfg_index : Int
  z_buffer_mode : Int
  deriving DecidableEq, Repr

/-- Placeholder for shape.py's `SubObject`: the codec neither parses nor
serializes sub-objects (`_DistanceLevelSerializer` has its sub-object
branch commented out), so no field of it is ever observed. -/
structure SubObject where
  deriving DecidableEq, Repr

structure DistanceLevelsHeader where
  dlevel_bias : Int
  deriving DecidableEq, Repr

structure DistanceLevelHeader where
  dlevel_selection : Int
  hierarchy : List Int
  deriving DecidableEq, Repr

structure DistanceLevel where
  distance_level_header : DistanceLevelHeader
  sub_objects : List SubObject
  deriving DecidableEq, Repr

structure LodControl where
  distance_levels_header : DistanceLevelsHeader
  distance_levels : List DistanceLevel
  deriving DecidableEq, Repr

/-- Placeholder for shape.py's `Animation`: the decoder always produces an
empty animation list and the encoder never renders one. -/
structure Animation where
  deriving DecidableEq, Repr

structure Shape where
  shape_header : ShapeHeader
  volumes : List VolumeSphere
  shader_names : List String
  texture_filter_names : List String
  points : List Point
  uv_points : List UVPoint
  normals : List Vector
  sort_vectors : List Vector
  colours : List Colour
  matrices : List Matrix
  images : List String
  textures : List Texture
  light_materials : List LightMaterial
  light_model_cfgs : List LightModelCfg
  vtx_states : List VtxState
  prim_states : List PrimState
  lod_controls : List LodControl
  animations : List Animation
  deriving DecidableEq, Repr

/-! ## List/Block codec (decoder.py `_ListParser`) -/

/-- A Python list comprehension over a fallible element function: the
first raised error aborts the whole list. -/
def mapME (f : α → Except PErr β) : List α → Except PErr (List β)
  | [] => .ok []
  | a :: as => do
      let b ← f a
      let bs ← mapME f as
      pure (b :: bs)

/-- The header `re.match` of `_ListParser.parse`:
`{list_name}\s*\(\s*(\d+)` anchored at the start of the stripped block
text (case-sensitively), returning the declared count and the text after
the match. -/
def listHeaderMatch (name : List Char) (t : List Char) : Option (Nat × List Char) :=
  match eatLit false name t with
  | none => none
  | some s =>
  match eatChar '(' (s.dropWhile isWs) with
  | none => none
  | some s =>
  match eatClassPlus (·.isDigit) (s.dropWhile isWs) with
  | none => none
  | some (ds, rest) => some (digitsVal ds, rest)

/-- `text.rfind(')')`. -/
def rlastParenIdx (t : List Char) : Option Nat :=
  (t.reverse.findIdx? (· = ')')).map (fun r => t.length - 1 - r)

/-- The scanning phase of `_ListParser.parse`: the declared count together
with the item matches found by `finditer` in the body (the text between
the header match and the last `)`). -/
def listScan (name : List Char) (itemMatcher : List Char → Option (List Char × List Char))
    (text : List Char) : Option (Nat × List (List Char)) :=
  let t := pyStrip text
  match listHeaderMatch name t with
  | none => none
  | some (count, afterHeader) =>
      match rlastParenIdx t with
      | none => none
      | some be =>
          let he := t.length - afterHeader.length
          some (count, findIter itemMatcher (pyStrip ((t.take be).drop he)))

/-- `_ListParser.parse`. -/
def listParse (name : List Char)
    (itemMatcher : List Char → Option (List Char × List Char))
    (itemParse : List Char → Except PErr α) (text : List Char) :
    Except PErr (List α) :=
  let t := pyStrip text
  match listHeaderMatch name t with
  | none => .error (.invalidHeader (String.mk name))
  | some (count, afterHeader) =>
      match rlastParenIdx t with
      | none =>
          if count = 0 then .ok [] else .error (.malformedBlock (String.mk name))
      | some be =>
          let he := t.length - afterHeader.length
          let body := pyStrip ((t.take be).drop he)
          let ms := findIter itemMatcher body
          if ms.length = count then mapME itemParse ms
          else .error (.countMismatch (String.mk name) count ms.length)

/-! ## Composite record codecs (decoder.py) -/

/-- `_ShapeHeaderParser.PATTERN` (matched with `search`, `IGNORECASE`):
`shape_header\s*\(\s*([0-9a-fA-F]{8})\s+([0-9a-fA-F]{8})\s*\)`. -/
def shapeHeaderMatch (s : List Char) : Option ((List Char × List Char) × List Char) :=
  match eatLit true "shape_header".data s with
  | none => none
  | some s =>
  match eatChar '(' (s.dropWhile isWs) with
  | none => none
  | some s =>
  match eatHex8 (s.dropWhile isWs) with
  | none => none
  | some (g1, s) =>
  match eatWsPlus s with
  | none => none
  | some s =>
  match eatHex8 s with
  | none => none
  | some (g2, s) =>
  match eatChar ')' (s.dropWhile isWs) with
  | none => none
  | some s => some ((g1, g2), s)

def shapeHeaderParse (text : List Char) : Except PErr ShapeHeader :=
  match search shapeHeaderMatch text with
  | none => .error (.invalidFormat "shape_header")
  | some (_, ((g1, g2), _)) => do
      let f1 ← hexParse g1
      let f2 ← hexParse g2
      pure ⟨String.mk f1, String.mk f2⟩

/-- `_VectorParser.PATTERN` (matched with `match` on the stripped text,
case-sensitively):
`vector\s*\(\s*([-+eE\d\.]+)\s+([-+eE\d\.]+)\s+([-+eE\d\.]+)\s*\)`. -/
def vectorMatch (s : List Char) :
    Option ((List Char × List Char × List Char) × List Char) :=
  match eatLit false "vector".data s with
  | none => none
  | some s =>
  match eatChar '(' (s.dropWhile isWs) with
  | none => none
  | some s =>
  match eatClassPlus isNumChar (s.dropWhile isWs) with
  | none => none
  | some (g1, s) =>
  match eatWsPlus s with
  | none => none
  | some s =>
  match eatClassPlus isNumChar s with
  | none => none
  | some (g2, s) =>
  match eatWsPlus s with
  | none => none
  | some s =>
  match eatClassPlus isNumChar s with
  | none => none
  | some (g3, s) =>
  match eatChar ')' (s.dropWhile isWs) with
  | none => none
  | some s => some ((g1, g2, g3), s)

def vectorParse (text : List Char) : Except PErr Vector :=
  match vectorMatch (pyStrip text) with
  | none => .error (.invalidFormat "vector")
  | some ((g1, g2, g3), _) => do
      let x ← floatParse g1
      let y ← floatParse g2
      let z ← floatParse g3
      pure ⟨x, y, z⟩

/-- `_PointParser.PATTERN` (`match` on stripped text): same shape as the
vector pattern with keyword `point`. -/
def pointMatch (s : List Char) :
    Option ((List Char × List Char × List Char) × List Char) :=
  match eatLit false "point".data s with
  | none => none
  | some s =>
  match eatChar '(' (s.dropWhile isWs) with
  | none => none
  | some s =>
  match eatClassPlus isNumChar (s.dropWhile isWs) with
  | none => none
  | some (g1, s) =>
  match eatWsPlus s with
  | none => none
  | some s =>
  match eatClassPlus isNumChar s with
  | none => none
  | some (g2, s) =>
  match eatWsPlus s with
  | none => none
  | some s =>
  match eatClassPlus isNumChar s with
  | none => none
  | some (g3, s) =>
  match eatChar ')' (s.dropWhile isWs) with
  | none => none
  | some s => some ((g1, g2, g3), s)

def pointParse (text : List Char) : Except PErr Point :=
  match pointMatch (pyStrip text) with
  | none => .error (.invalidFormat "point")
  | some ((g1, g2, g3), _) => do
      let x ← floatParse g1
      let y ← floatParse g2
      let z ← floatParse g3
      pure ⟨x, y, z⟩

/-- `_UVPointParser.PATTERN` (`match` on stripped text):
`uv_point\s*\(\s*([-+eE\d\.]+)\s+([-+eE\d\.]+)\s*\)`. -/
def uvPointMatch (s : List Char) : Option ((List Char × List Char) × List Char) :=
  match eatLit false "uv_point".data s with
  | none => none
  | some s =>
  match eatChar '(' (s.dropWhile isWs) with
  | none => none
  | some s =>
  match eatClassPlus isNumChar (s.dropWhile isWs) with
  | none => none
  | some (g1, s) =>
  match eatWsPlus s with
  | none => none
  | some s =>
  match eatClassPlus isNumChar s with
  | none => none
  | some (g2, s) =>
  match eatChar ')' (s.dropWhile isWs) with
  | none => none
  | some s => some ((g1, g2), s)

def uvPointParse (text : List Char) : Except PErr UVPoint :=
  match uvPointMatch (pyStrip text) with
  | none => .error (.invalidFormat "uv_point")
  | some ((g1, g2), _) => do
      let u ← floatParse g1
      let v ← floatParse g2
      pure ⟨u, v⟩

/-- `_ColourParser.PATTERN` (`match` on stripped text): four
`[-+eE\d\.]+` groups after the `colour` keyword, in a-r-g-b order. -/
def colourMatch (s : List Char) :
    Option ((List Char × List Char × List Char × List Char) × List Char) :=
  match eatLit false "colour".data s with
  | none => none
  | some s =>
  match eatChar '(' (s.dropWhile isWs) with
  | none => none
  | some s =>
  match eatClassPlus isNumChar (s.dropWhile isWs) with
  | none => none
  | some (g1, s) =>
  match eatWsPlus s with
  | none => none
  | some s =>
  match eatClassPlus isNumChar s with
  | none => none
  | some (g2, s) =>
  match eatWsPlus s with
  | none => none
  | some s =>
  match eatClassPlus isNumChar s with
  | none => none
  | some (g3, s) =>
  match eatWsPlus s with
  | none => none
  | some s =>
  match eatClassPlus isNumChar s with
  | none => none
  | some (g4, s) =>
  match eatChar ')' (s.dropWhile isWs) with
  | none => none
  | some s => some ((g1, g2, g3, g4), s)

def colourParse (text : List Char) : Except PErr Colour :=
  match colourMatch (pyStrip text) with
  | none => .error (.invalidFormat "colour")
  | some ((g1, g2, g3, g4), _) => do
      let a ← floatParse g1
      let r ← floatParse g2
      let g ← floatParse g3
      let b ← floatParse g4
      pure ⟨a, r, g, b⟩

/-- The value grid of `_MatrixParser.PATTERN`
(`matrix\s+(\S+)\s*\(\s*([-+eE\d\.]+(?:\s+[-+eE\d\.]+){11})\s*\)`,
`match` on stripped text): the name group needs genuine backtracking
(`\S+` can swallow the `(`), and group 2 is subsequently `split()`, so the
matcher returns the 12 whitespace-separated value tokens directly. -/
def matrixValueTokens : Nat → List Char → Option (List (List Char) × List Char)
  | 0, s => some ([], s)
  | k + 1, s =>
      match eatWsPlus s with
      | none => none
      | some s =>
      match eatClassPlus isNumChar s with
      | none => none
      | some (tok, s') =>
      match matrixValueTokens k s' with
      | none => none
      | some (toks, r) => some (tok :: toks, r)

def matrixMatch (s : List Char) :
    Option ((List Char × List (List Char)) × List Char) :=
  match eatLit false "matrix".data s with
  | none => none
  | some s =>
  match eatWsPlus s with
  | none => none
  | some s =>
  eatNonWsGroup
    (fun name rest =>
      match eatChar '(' (rest.dropWhile isWs) with
      | none => none
      | some r =>
      match eatClassPlus isNumChar (r.dropWhile isWs) with
      | none => none
      | some (tok0, r) =>
      match matrixValueTokens 11 r with
      | none => none
      | some (toks, r) =>
      match eatChar ')' (r.dropWhile isWs) with
      | none => none
      | some r => some ((name, tok0 :: toks), r))
    s

def matrixParse (text : List Char) : Except PErr Matrix :=
  match matrixMatch (pyStrip text) with
  | none => .error (.invalidFormat "matrix")
  | some ((nameTok, valueToks), _) => do
      let name ← strParse nameTok
      let vals ← mapME floatParse valueToks
      match vals with
      | [a1, a2, a3, b1, b2, b3, c1, c2, c3, d1, d2, d3] =>
          pure ⟨String.mk name, a1, a2, a3, b1, b2, b3, c1, c2, c3, d1, d2, d3⟩
      | _ => .error (.invalidFormat "matrix")

/-- `_VolumeSphereParser.PATTERN` (`search`, `IGNORECASE`):
`vol_sphere\s*\(\s*(vector\s*\([^()]*\))\s+(-?\d+(?:\.\d+)?)\s*\)`. -/
def volSphereMatch (s : List Char) :
    Option ((List Char × List Char) × List Char) :=
  match eatLit true "vol_sphere".data s with
  | none => none
  | some s =>
  match eatChar '(' (s.dropWhile isWs) with
  | none => none
  | some s =>
  let s0 := s.dropWhile isWs
  -- group 1: vector\s*\([^()]*\)
  match eatLit true "vector".data s0 with
  | none => none
  | some s1 =>
  match eatChar '(' (s1.dropWhile isWs) with
  | none => none
  | some s1 =>
  match eatChar ')' (s1.dropWhile (fun c => !(c = '(' || c = ')'))) with
  | none => none
  | some s1 =>
  let g1 := s0.take (s0.length - s1.length)
  match eatWsPlus s1 with
  | none => none
  | some s =>
  match eatSNumTok s with
  | none => none
  | some (g2, s) =>
  match eatChar ')' (s.dropWhile isWs) with
  | none => none
  | some s => some ((g1, g2), s)

def volSphereParse (text : List Char) : Except PErr VolumeSphere :=
  match search volSphereMatch text with
  | none => .error (.invalidFormat "vol_sphere")
  | some (_, ((g1, g2), _)) => do
      let radius ← floatParse g2
      let vec ← vectorParse g1
      pure ⟨vec, radius⟩

/-- `_NamedShaderParser` / `_NamedFilterModeParser` / `_ImageParser`
(`search`, `IGNORECASE`): `{kw}\s*\(\s*(.+?)\s*\)` followed by an
emptiness check on the stripped group. -/
def namedValueMatch (kw : List Char) (s : List Char) :
    Option (List Char × List Char) :=
  match eatLit true kw s with
  | none => none
  | some s =>
  match eatChar '(' (s.dropWhile isWs) with
  | none => none
  | some s =>
  match findClose s with
  | none => none
  | some (content, rest) => some (pyStrip content, rest)

def namedValueParse (kw : String) (text : List Char) : Except PErr (List Char) :=
  match search (namedValueMatch kw.data) text with
  | none => .error (.invalidFormat kw)
  | some (_, (value, _)) =>
      if value = [] then .error (.emptyValue kw) else .ok value

/-- `_TextureParser.PATTERN` (`search`, `IGNORECASE`):
`texture\s*\(\s*(-?\d+)\s+(-?\d+)\s+(-?\d+(?:\.\d+)?)\s+([a-fA-F0-9]+)\s*\)`. -/
def textureMatch (s : List Char) :
    Option ((List Char × List Char × List Char × List Char) × List Char) :=
  match eatLit true "texture".data s with
  | none => none
  | some s =>
  match eatChar '(' (s.dropWhile isWs) with
  | none => none
  | some s =>
  match eatIntTok (s.dropWhile isWs) with
  | none => none
  | some (g1, s) =>
  match eatWsPlus s with
  | none => none
  | some s =>
  match eatIntTok s with
  | none => none
  | some (g2, s) =>
  match eatWsPlus s with
  | none => none
  | some s =>
  match eatSNumTok s with
  | none => none
  | some (g3, s) =>
  match eatWsPlus s with
  | none => none
  | some s =>
  match eatClassPlus isHexDigit s with
  | none => none
  | some (g4, s) =>
  match eatChar ')' (s.dropWhile isWs) with
  | none => none
  | some s => some ((g1, g2, g3, g4), s)

def textureParse (text : List Char) : Except PErr Texture :=
  match search textureMatch text with
  | none => .error (.invalidFormat "texture")
  | some (_, ((g1, g2, g3, g4), _)) => do
      let imageIndex ← intParse g1
      let filterMode ← intParse g2
      let mipmapLodBias ← floatParse g3
      let borderColour ← hexParse g4
      pure ⟨imageIndex, filterMode, mipmapLodBias, String.mk borderColour⟩

/-- `_LightMaterialParser.PATTERN` (`search`, `IGNORECASE`):
`light_material\s*\(\s*([a-fA-F0-9]+)\s+(-?\d+)\s+(-?\d+)\s+(-?\d+)\s+(-?\d+)\s+(-?\d+(?:\.\d+)?)\s*\)`. -/
def lightMaterialMatch (s : List Char) :
    Option ((List Char × List Char × List Char × List Char × List Char × List Char)
      × List Char) :=
  match eatLit true "light_material".data s with
  | none => none
  | some s =>
  match eatChar '(' (s.dropWhile isWs) with
  | none => none
  | some s =>
  match eatClassPlus isHexDigit (s.dropWhile isWs) with
  | none => none
  | some (g1, s) =>
  match eatWsPlus s with
  | none => none
  | some s =>
  match eatIntTok s with
  | none => none
  | some (g2, s) =>
  match eatWsPlus s with
  | none => none
  | some s =>
  match eatIntTok s with
  | none => none
  | some (g3, s) =>
  match eatWsPlus s with
  | none => none
  | some s =>
  match eatIntTok s with
  | none => none
  | some (g4, s) =>
  match eatWsPlus s with
  | none => none
  | some s =>
  match eatIntTok s with
  | none => none
  | some (g5, s) =>
  match eatWsPlus s with
  | none => none
  | some s =>
  match eatSNumTok s with
  | none => none
  | some (g6, s) =>
  match eatChar ')' (s.dropWhile isWs) with
  | none => none
  | some s => some ((g1, g2, g3, g4, g5, g6), s)

def lightMaterialParse (text : List Char) : Except PErr LightMaterial :=
  match search lightMaterialMatch text with
  | none => .error (.invalidFormat "light_material")
  | some (_, ((g1, g2, g3, g4, g5, g6), _)) => do
      let flags ← hexParse g1
      let diffIdx ← intParse g2
      let ambIdx ← intParse g3
      let specIdx ← intParse g4
      let emissiveIdx ← intParse g5
      let specPower ← floatParse g6
      pure ⟨String.mk flags, diffIdx, ambIdx, specIdx, emissiveIdx, specPower⟩

/-- `[a-z]` under `re.IGNORECASE`. -/
def isAsciiAlpha (c : Char) : Bool :=
  ('a' ≤ c && c ≤ 'z') || ('A' ≤ c && c ≤ 'Z')

/-- The up-to-three optional trailing groups `(?:\s+(-?\d+))?` of the
`uv_op` pattern; an absent group consumes nothing. -/
def optIntToks : Nat → List Char → (List (List Char) × List Char)
  | 0, s => ([], s)
  | k + 1, s =>
      match eatWsPlus s with
      | none => ([], s)
      | some s' =>
          match eatIntTok s' with
          | none => ([], s)
          | some (tok, s'') =>
              let (toks, r) := optIntToks k s''
              (tok :: toks, r)

/-- `_UVOpParser.PATTERN` (anchored form; `IGNORECASE`):
`uv_op_([a-z]+)\s*\(\s*(-?\d+)(?:\s+(-?\d+))?(?:\s+(-?\d+))?(?:\s+(-?\d+))?\s*\)`,
capturing the lowercased suffix (`match.group(1).lower()`) and the 1–4
integer tokens present. -/
def uvOpMatch (s : List Char) :
    Option ((List Char × List (List Char)) × List Char) :=
  match eatLit true "uv_op_".data s with
  | none => none
  | some s =>
  match eatClassPlus isAsciiAlpha s with
  | none => none
  | some (sfx, s) =>
  match eatChar '(' (s.dropWhile isWs) with
  | none => none
  | some s =>
  match eatIntTok (s.dropWhile isWs) with
  | none => none
  | some (tok1, s) =>
  let ms := optIntToks 3 s
  match eatChar ')' (ms.2.dropWhile isWs) with
  | none => none
  | some s => some ((lowerAll sfx, tok1 :: ms.1), s)

/-- The `fullmatch` + value-extraction phase of `_UVOpParser.parse`. -/
def uvOpScan (text : List Char) : Option (List Char × List (List Char)) :=
  match uvOpMatch (pyStrip text) with
  | some (caps, []) => some caps
  | _ => none

/-- The variant-dispatch phase of `_UVOpParser.parse`: the suffix selects
the constructor and the arity is checked per variant, in the source's
`if/elif` order. -/
def uvOpDispatch (op : String) (vals : List Int) : Except PErr UVOp :=
  if op = "copy" then
    match vals with
    | [a, b] => .ok (.copy a b)
    | _ => .error (.arityMismatch "copy" vals.length)
  else if op = "reflectmapfull" then
    match vals with
    | [a] => .ok (.reflectmapfull a)
    | _ => .error (.arityMismatch "reflectmapfull" vals.length)
  else if op = "reflectmap" then
    match vals with
    | [a] => .ok (.reflectmap a)
    | _ => .error (.arityMismatch "reflectmap" vals.length)
  else if op = "uniformscale" then
    match vals with
    | [a, b, c, d] => .ok (.uniformscale a b c d)
    | _ => .error (.arityMismatch "uniformscale" vals.length)
  else if op = "nonuniformscale" then
    match vals with
    | [a, b, c, d] => .ok (.nonuniformscale a b c d)
    | _ => .error (.arityMismatch "nonuniformscale" vals.length)
  else .error (.unknownVariant op)

/-- `_UVOpParser.parse`. -/
def uvOpParse (text : List Char) : Except PErr UVOp :=
  match uvOpScan text with
  | none => .error (.invalidFormat "uv_op")
  | some (sfx, toks) => do
      let vals ← mapME intParse toks
      uvOpDispatch (String.mk sfx) vals

/-- `[a-z_]` under `re.IGNORECASE`. -/
def isAsciiAlphaUnd (c : Char) : Bool := isAsciiAlpha c || c == '_'

/-- One repetition of the inner item of `_LightModelCfgParser.PATTERN`:
`uv_op_[a-z_]+\s*\(\s*-?\d+\s+-?\d+\s*\)\s*` — note the two mandatory
integer arguments. -/
def lmcItem (s : List Char) : Option (List Char) :=
  match eatLit true "uv_op_".data s with
  | none => none
  | some s =>
  match eatClassPlus isAsciiAlphaUnd s with
  | none => none
  | some (_, s) =>
  match eatChar '(' (s.dropWhile isWs) with
  | none => none
  | some s =>
  match eatIntTok (s.dropWhile isWs) with
  | none => none
  | some (_, s) =>
  match eatWsPlus s with
  | none => none
  | some s =>
  match eatIntTok s with
  | none => none
  | some (_, s) =>
  match eatChar ')' (s.dropWhile isWs) with
  | none => none
  | some s => some (s.dropWhile isWs)

/-- The `(?: … )+` repetition of `lmcItem`. -/
def lmcRepeatAux : Nat → List Char → Option (List Char)
  | 0, _ => none
  | fuel + 1, s =>
      match lmcItem s with
      | none => none
      | some s' =>
          match lmcRepeatAux fuel s' with
          | some r => some r
          | none => some s'

def lmcRepeat (s : List Char) : Option (List Char) :=
  lmcRepeatAux (s.length + 1) s

/-- `_LightModelCfgParser.PATTERN` (`search`, `IGNORECASE | VERBOSE |
DOTALL`). -/
def lmcMatch (s : List Char) : Option (List Char × List Char) :=
  match eatLit true "light_model_cfg".data s with
  | none => none
  | some s =>
  match eatChar '(' (s.dropWhile isWs) with
  | none => none
  | some s =>
  match eatClassPlus isHexDigit (s.dropWhile isWs) with
  | none => none
  | some (flags, s) =>
  match eatLit true "uv_ops".data (s.dropWhile isWs) with
  | none => none
  | some s =>
  match eatChar '(' (s.dropWhile isWs) with
  | none => none
  | some s =>
  match eatClassPlus (·.isDigit) (s.dropWhile isWs) with
  | none => none
  | some (_, s) =>
  match lmcRepeat (s.dropWhile isWs) with
  | none => none
  | some s =>
  match eatChar ')' s with
  | none => none
  | some s =>
  match eatChar ')' (s.dropWhile isWs) with
  | none => none
  | some s => some (flags, s)

/-- `_LightModelCfgParser.parse`: the whole-block pattern must match, then
the `uv_ops` block is located and parsed with the generic list parser over
`_UVOpParser.PATTERN`. -/
def lightModelCfgParse (text : List Char) : Except PErr LightModelCfg :=
  match search lmcMatch text with
  | none => .error (.invalidFormat "light_model_cfg")
  | some (_, (flagsTok, _)) => do
      let flags ← hexParse flagsTok
      let uvOps ← parseBlock "uv_ops"
        (listParse "uv_ops".data (withTok uvOpMatch) uvOpParse) text
      pure ⟨String.mk flags, uvOps⟩

/-- `_VtxStateParser.PATTERN` (`search`, `IGNORECASE`):
`vtx_state\s*\(\s*([a-fA-F0-9]+)\s+(-?\d+)\s+(-?\d+)\s+(-?\d+)\s+([a-fA-F0-9]+)(?:\s+(-?\d+))?\s*\)`. -/
def vtxStateMatch (s : List Char) :
    Option ((List Char × List Char × List Char × List Char × List Char
      × Option (List Char)) × List Char) :=
  match eatLit true "vtx_state".data s with
  | none => none
  | some s =>
  match eatChar '(' (s.dropWhile isWs) with
  | none => none
  | some s =>
  match eatClassPlus isHexDigit (s.dropWhile isWs) with
  | none => none
  | some (g1, s) =>
  match eatWsPlus s with
  | none => none
  | some s =>
  match eatIntTok s with
  | none => none
  | some (g2, s) =>
  match eatWsPlus s with
  | none => none
  | some s =>
  match eatIntTok s with
  | none => none
  | some (g3, s) =>
  match eatWsPlus s with
  | none => none
  | some s =>
  match eatIntTok s with
  | none => none
  | some (g4, s) =>
  match eatWsPlus s with
  | none => none
  | some s =>
  match eatClassPlus isHexDigit s with
  | none => none
  | some (g5, s) =>
  let g6s := optIntToks 1 s
  match eatChar ')' (g6s.2.dropWhile isWs) with
  | none => none
  | some s => some ((g1, g2, g3, g4, g5, g6s.1.head?), s)

def vtxStateParse (text : List Char) : Except PErr VtxState :=
  match search vtxStateMatch text with
  | none => .error (.invalidFormat "vtx_state")
  | some (_, ((g1, g2, g3, g4, g5, g6?), _)) => do
      let flags ← hexParse g1
      let matrixIndex ← intParse g2
      let lightMaterialIndex ← intParse g3
      let lightModelCfgIndex ← intParse g4
      let lightFlags ← hexParse g5
      let matrix2Index ← match g6? with
        | some g6 => (intParse g6).map some
        | none => pure none
      pure ⟨String.mk flags, matrixIndex, lightMaterialIndex, lightModelCfgIndex,
        String.mk lightFlags, matrix2Index⟩

/-- `_PrimStateParser.PATTERN` (`search`, `IGNORECASE | VERBOSE`):
`prim_state\s+(\w+)\s*\(\s*([a-fA-F0-9]+)\s+(\d+)\s+tex_idxs\s*\(.*?\)\s+(-?\d+)\s+(-?\d+)\s+(-?\d+)\s+(-?\d+)\s+(-?\d+)\s*\)`
— the `tex_idxs` contents are skipped lazily by the pattern and parsed
separately via `_parse_block`. -/
def primStateMatch (s : List Char) :
    Option ((List Char × List Char × List Char × List Char × List Char
      × List Char × List Char × List Char) × List Char) :=
  match eatLit true "prim_state".data s with
  | none => none
  | some s =>
  match eatWsPlus s with
  | none => none
  | some s =>
  match eatClassPlus isWordChar s with
  | none => none
  | some (g1, s) =>
  match eatChar '(' (s.dropWhile isWs) with
  | none => none
  | some s =>
  match eatClassPlus isHexDigit (s.dropWhile isWs) with
  | none => none
  | some (g2, s) =>
  match eatWsPlus s with
  | none => none
  | some s =>
  match eatClassPlus (·.isDigit) s with
  | none => none
  | some (g3, s) =>
  match eatWsPlus s with
  | none => none
  | some s =>
  match eatLit true "tex_idxs".data s with
  | none => none
  | some s =>
  match eatChar '(' (s.dropWhile isWs) with
  | none => none
  | some s =>
  lazyThru
    (fun r =>
      match eatWsPlus r with
      | none => none
      | some r =>
      match eatIntTok r with
      | none => none
      | some (g4, r) =>
      match eatWsPlus r with
      | none => none
      | some r =>
      match eatIntTok r with
      | none => none
      | some (g5, r) =>
      match eatWsPlus r with
      | none => none
      | some r =>
      match eatIntTok r with
      | none => none
      | some (g6, r) =>
      match eatWsPlus r with
      | none => none
      | some r =>
      match eatIntTok r with
      | none => none
      | some (g7, r) =>
      match eatWsPlus r with
      | none => none
      | some r =>
      match eatIntTok r with
      | none => none
      | some (g8, r) =>
      match eatChar ')' (r.dropWhile isWs) with
      | none => none
      | some r => some ((g1, g2, g3, g4, g5, g6, g7, g8), r))
    s

def primStateParse (text : List Char) : Except PErr PrimState :=
  match search primStateMatch text with
  | none => .error (.invalidFormat "prim_state")
  | some (_, ((g1, g2, g3, g4, g5, g6, g7, g8), _)) =>
    match strParse g1 with
    | .error e => .error e
    | .ok name =>
    match hexParse g2 with
    | .error e => .error e
    | .ok flags =>
    match intParse g3 with
    | .error e => .error e
    | .ok shaderIndex =>
    match parseBlock "tex_idxs"
        (listParse "tex_idxs".data (withTok eatIntTok) (fun t => intParse t)) text with
    | .error e => .error e
    | .ok textureIndices =>
    match floatParse g4 with
    | .error e => .error e
    | .ok zBias =>
    match intParse g5 with
    | .error e => .error e
    | .ok vtxStateIndex =>
    match intParse g6 with
    | .error e => .error e
    | .ok alphaTestMode =>
    match intParse g7 with
    | .error e => .error e
    | .ok lightCfgIndex =>
    match intParse g8 with
    | .error e => .error e
    | .ok zBufferMode =>
      .ok ⟨String.mk name, String.mk flags, shaderIndex, textureIndices, zBias,
        vtxStateIndex, alphaTestMode, lightCfgIndex, zBufferMode⟩

/-! ## Top-level shape codec (decoder.py `_ShapeParser`) -/

/-- `_ShapeParser.parse`: locate and parse every block in the fixed
grammar order; `lod_controls` is hard-wired to `[]` and `animations` to
`None` (hence `[]`). -/
def shapeParse (text : List Char) : Except PErr Shape :=
  match parseBlock "shape_header" shapeHeaderParse text with
  | .error e => .error e
  | .ok shapeHeader =>
  match parseBlock "volumes"
      (listParse "volumes".data (withTok volSphereMatch) volSphereParse) text with
  | .error e => .error e
  | .ok volumes =>
  match parseBlock "shader_names"
      (listParse "shader_names".data (withTok (namedValueMatch "named_shader".data))
        (fun t => (namedValueParse "named_shader" t).map String.mk)) text with
  | .error e => .error e
  | .ok shaderNames =>
  match parseBlock "texture_filter_names"
      (listParse "texture_filter_names".data
        (withTok (namedValueMatch "named_filter_mode".data))
        (fun t => (namedValueParse "named_filter_mode" t).map String.mk)) text with
  | .error e => .error e
  | .ok textureFilterNames =>
  match parseBlock "points"
      (listParse "points".data (withTok pointMatch) pointParse) text with
  | .error e => .error e
  | .ok points =>
  match parseBlock "uv_points"
      (listParse "uv_points".data (withTok uvPointMatch) uvPointParse) text with
  | .error e => .error e
  | .ok uvPoints =>
  match parseBlock "normals"
      (listParse "normals".data (withTok vectorMatch) vectorParse) text with
  | .error e => .error e
  | .ok normals =>
  match parseBlock "sort_vectors"
      (listParse "sort_vectors".data (withTok vectorMatch) vectorParse) text with
  | .error e => .error e
  | .ok sortVectors =>
  match parseBlock "colours"
      (listParse "colours".data (withTok colourMatch) colourParse) text with
  | .error e => .error e
  | .ok colours =>
  match parseBlock "matrices"
      (listParse "matrices".data (withTok matrixMatch) matrixParse) text with
  | .error e => .error e
  | .ok matrices =>
  match parseBlock "images"
      (listParse "images".data (withTok (namedValueMatch "image".data))
        (fun t => (namedValueParse "image" t).map String.mk)) text with
  | .error e => .error e
  | .ok images =>
  match parseBlock "textures"
      (listParse "textures".data (withTok textureMatch) textureParse) text with
  | .error e => .error e
  | .ok textures =>
  match parseBlock "light_materials"
      (listParse "light_materials".data (withTok lightMaterialMatch)
        lightMaterialParse) text with
  | .error e => .error e
  | .ok lightMaterials =>
  match parseBlock "light_model_cfgs"
      (listParse "light_model_cfgs".data (withTok lmcMatch) lightModelCfgParse) text with
  | .error e => .error e
  | .ok lightModelCfgs =>
  match parseBlock "vtx_states"
      (listParse "vtx_states".data (withTok vtxStateMatch) vtxStateParse) text with
  | .error e => .error e
  | .ok vtxStates =>
  match parseBlock "prim_states"
      (listParse "prim_states".data (withTok primStateMatch) primStateParse) text with
  | .error e => .error e
  | .ok primStates =>
    .ok
      { shape_header := shapeHeader
        volumes := volumes
        shader_names := shaderNames
        texture_filter_names := textureFilterNames
        points := points
        uv_points := uvPoints
        normals := normals
        sort_vectors := sortVectors
        colours := colours
        matrices := matrices
        images := images
        textures := textures
        light_materials := lightMaterials
        light_model_cfgs := lightModelCfgs
        vtx_states := vtxStates
        prim_states := primStates
        lod_controls := []
        animations := [] }

/-- `ShapeDecoder.decode`. -/
def shapeDecode (text : String) : Except PErr Shape := shapeParse text.data

/-- `_StrSerializer.serialize` (identity on well-typed input). -/
def strSerialize (s : String) : String := s

/-- `_HexSerializer.serialize` = `value.lower()`. -/
def hexSerialize (s : String) : String := String.mk (lowerAll s.data)

/-! ## Encoder (encoder.py)

Every serializer receives the indent unit `iu`
(`("\t" if use_tabs else " ") * indent` of `_Serializer.__init__`) and the
depth, mirroring the Python instances. -/

/-- `_Serializer.get_indent`: `indent_unit * depth`. -/
def getIndent (iu : String) : Nat → String
  | 0 => ""
  | d + 1 => iu ++ getIndent iu d

/-- `sep.join(parts)`. -/
def sjoin (sep : String) : List String → String
  | [] => ""
  | [x] => x
  | x :: xs => x ++ sep ++ sjoin sep xs

/-- `str.strip()` on `String`. -/
def pyStripStr (s : String) : String := String.mk (pyStrip s.data)

/-- The item loop of `_Serializer._serialize_items_in_block`, carried out
on the already-serialized item strings.  `linesRev` is the `lines` list in
reverse (so `lines[-1] += …` edits the head). -/
def sibLoop (innerIndent : String) (effective : Nat) (snlh : Bool)
    (ipnNone : Bool) (snlbc : Bool) :
    List String → List String → Bool → List String → List String
  | _, linesRev, _, [] => linesRev
  | current, linesRev, isFirst, itemStr :: rest =>
      let current' := current ++ [itemStr]
      let isLast := rest.isEmpty
      let shouldWrap := current'.length == effective
      if shouldWrap || isLast then
        let line := sjoin " " current'
        let linesRev' :=
          if !snlh && isFirst then
            match linesRev with
            | [] => [line]
            | h :: t => (h ++ " " ++ line) :: t
          else if ipnNone && !snlbc then line :: linesRev
          else (innerIndent ++ line) :: linesRev
        sibLoop innerIndent effective snlh ipnNone snlbc [] linesRev' false rest
      else sibLoop innerIndent effective snlh ipnNone snlbc current' linesRev isFirst rest

/-- `_Serializer._serialize_items_in_block`.  The Python defaults are
`items_per_line=1`, `count_multiplier=1`, `newline_after_header=True`,
`newline_before_closing=True`; callers here always pass all knobs
explicitly.  `items_per_line or len(...)` treats both `None` and `0` as
"everything on one line"; the later `items_per_line is None` test
distinguishes them, hence the separate `Option`. -/
def serializeItemsInBlock {T : Type} (iu : String) (items : List T)
    (blockName : String) (itemSer : T → Nat → String) (depth : Nat)
    (itemsPerLine : Option Nat) (countMultiplier : Int)
    (newlineAfterHeader newlineBeforeClosing : Bool) : String :=
  let innerDepth := depth + 1
  let indent := getIndent iu depth
  let innerIndent := getIndent iu innerDepth
  let count : Int := (items.length : Int) * countMultiplier
  let header := indent ++ blockName ++ " ( " ++ toString count
  let listEmpty := items.isEmpty
  let snlh := newlineAfterHeader && !listEmpty
  let snlbc := newlineBeforeClosing && !listEmpty
  let serialized := items.map (fun it => pyStripStr (itemSer it innerDepth))
  let effective : Nat :=
    match itemsPerLine with
    | none => serialized.length
    | some n => if n = 0 then serialized.length else n
  let linesRev :=
    sibLoop innerIndent effective snlh itemsPerLine.isNone snlbc [] [header] true serialized
  let linesRev' :=
    if snlbc then (indent ++ ")") :: linesRev
    else
      match linesRev with
      | [] => [")"]
      | h :: t => (h ++ " )") :: t
  sjoin "\n" linesRev'.reverse

/-- `_ShapeHeaderSerializer.serialize`. -/
def shapeHeaderSerialize (iu : String) (h : ShapeHeader) (depth : Nat) : String :=
  getIndent iu depth ++ "shape_header ( " ++ hexSerialize h.flags1 ++ " "
    ++ hexSerialize h.flags2 ++ " )"

/-- `_VectorSerializer.serialize`. -/
def vectorSerialize (iu : String) (v : Vector) (depth : Nat) : String :=
  getIndent iu depth ++ "vector ( " ++ floatSerialize v.x ++ " "
    ++ floatSerialize v.y ++ " " ++ floatSerialize v.z ++ " )"

/-- `_VolumeSphereSerializer.serialize`. -/
def volSphereSerialize (iu : String) (vs : VolumeSphere) (depth : Nat) : String :=
  let indent := getIndent iu depth
  let innerIndent := getIndent iu (depth + 1)
  let vectorStr := pyStripStr (vectorSerialize iu vs.vector (depth + 1))
  let radiusStr := floatSerialize vs.radius
  indent ++ "vol_sphere (\n" ++ innerIndent ++ vectorStr ++ " " ++ radiusStr
    ++ "\n" ++ indent ++ ")"

/-- `_NamedShaderSerializer.serialize`. -/
def namedShaderSerialize (iu : String) (v : String) (depth : Nat) : String :=
  getIndent iu depth ++ "named_shader ( " ++ strSerialize v ++ " )"

/-- `_NamedFilterModeSerializer.serialize`. -/
def namedFilterModeSerialize (iu : String) (v : String) (depth : Nat) : String :=
  getIndent iu depth ++ "named_filter_mode ( " ++ strSerialize v ++ " )"

/-- `_PointSerializer.serialize`. -/
def pointSerialize (iu : String) (p : Point) (depth : Nat) : String :=
  getIndent iu depth ++ "point ( " ++ floatSerialize p.x ++ " "
    ++ floatSerialize p.y ++ " " ++ floatSerialize p.z ++ " )"

/-- `_UVPointSerializer.serialize`. -/
def uvPointSerialize (iu : String) (p : UVPoint) (depth : Nat) : String :=
  getIndent iu depth ++ "uv_point ( " ++ floatSerialize p.u ++ " "
    ++ floatSerialize p.v ++ " )"

/-- `_ColourSerializer.serialize`. -/
def colourSerialize (iu : String) (c : Colour) (depth : Nat) : String :=
  getIndent iu depth ++ "colour ( " ++ floatSerialize c.a ++ " "
    ++ floatSerialize c.r ++ " " ++ floatSerialize c.g ++ " "
    ++ floatSerialize c.b ++ " )"

/-- `_MatrixSerializer.serialize`. -/
def matrixSerialize (iu : String) (m : Matrix) (depth : Nat) : String :=
  let valuesStr := sjoin " "
    [floatSerialize m.ax, floatSerialize m.ay, floatSerialize m.az,
     floatSerialize m.bx, floatSerialize m.by', floatSerialize m.bz,
     floatSerialize m.cx, floatSerialize m.cy, floatSerialize m.cz,
     floatSerialize m.dx, floatSerialize m.dy, floatSerialize m.dz]
  getIndent iu depth ++ "matrix " ++ m.name ++ " ( " ++ valuesStr ++ " )"

/-- `_ImageSerializer.serialize`. -/
def imageSerialize (iu : String) (v : String) (depth : Nat) : String :=
  getIndent iu depth ++ "image ( " ++ strSerialize v ++ " )"

/-- `_TextureSerializer.serialize`. -/
def textureSerialize (iu : String) (t : Texture) (depth : Nat) : String :=
  getIndent iu depth ++ "texture ( " ++ intSerialize t.image_index ++ " "
    ++ intSerialize t.filter_mode ++ " " ++ floatSerialize t.mipmap_lod_bias
    ++ " " ++ hexSerialize t.border_colour ++ " )"

/-- `_LightMaterialSerializer.serialize`. -/
def lightMaterialSerialize (iu : String) (lm : LightMaterial) (depth : Nat) : String :=
  getIndent iu depth ++ "light_material ( " ++ hexSerialize lm.flags ++ " "
    ++ intSerialize lm.diff_colour_index ++ " "
    ++ intSerialize lm.amb_colour_index ++ " "
    ++ intSerialize lm.spec_colour_index ++ " "
    ++ intSerialize lm.emissive_colour_index ++ " "
    ++ floatSerialize lm.spec_power ++ " )"

/-- `_UVOpSerializer.serialize`: one branch per `isinstance` check. -/
def uvOpSerialize (iu : String) (op : UVOp) (depth : Nat) : String :=
  let indent := getIndent iu depth
  match op with
  | .copy a b => indent ++ "uv_op_copy ( " ++ intSerialize a ++ " "
      ++ intSerialize b ++ " )"
  | .reflectmapfull a => indent ++ "uv_op_reflectmapfull ( " ++ intSerialize a ++ " )"
  | .reflectmap a => indent ++ "uv_op_reflectmap ( " ++ intSerialize a ++ " )"
  | .uniformscale a b c d => indent ++ "uv_op_uniformscale ( " ++ intSerialize a
      ++ " " ++ intSerialize b ++ " " ++ intSerialize c ++ " "
      ++ intSerialize d ++ " )"
  | .nonuniformscale a b c d => indent ++ "uv_op_nonuniformscale ( "
      ++ intSerialize a ++ " " ++ intSerialize b ++ " " ++ intSerialize c
      ++ " " ++ intSerialize d ++ " )"

/-- `_LightModelCfgSerializer.serialize`. -/
def lightModelCfgSerialize (iu : String) (lmc : LightModelCfg) (depth : Nat) : String :=
  let indent := getIndent iu depth
  let flags := hexSerialize lmc.flags
  let uvOpsBlock := serializeItemsInBlock iu lmc.uv_ops "uv_ops"
    (uvOpSerialize iu) (depth + 1) (some 1) 1 true true
  indent ++ "light_model_cfg ( " ++ flags ++ "\n" ++ uvOpsBlock ++ "\n" ++ indent ++ ")"

/-- `_VtxStateSerializer.serialize`. -/
def vtxStateSerialize (iu : String) (v : VtxState) (depth : Nat) : String :=
  let base := getIndent iu depth ++ "vtx_state ( " ++ hexSerialize v.flags ++ " "
    ++ intSerialize v.matrix_index ++ " "
    ++ intSerialize v.light_material_index ++ " "
    ++ intSerialize v.light_model_cfg_index ++ " "
    ++ hexSerialize v.light_flags
  let base :=
    match v.matrix2_index with
    | some m2 => base ++ " " ++ intSerialize m2
    | none => base
  base ++ " )"

/-- `_PrimStateSerializer.serialize`. -/
def primStateSerialize (iu : String) (ps : PrimState) (depth : Nat) : String :=
  let indent := getIndent iu depth
  let texIdxsBlock := serializeItemsInBlock iu ps.texture_indices "tex_idxs"
    (fun i _ => intSerialize i) (depth + 1) none 1 false false
  indent ++ "prim_state " ++ ps.name ++ " ( " ++ hexSerialize ps.flags ++ " "
    ++ intSerialize ps.shader_index ++ "\n" ++ texIdxsBlock ++ " "
    ++ floatSerialize ps.z_bias ++ " " ++ intSerialize ps.vtx_state_index ++ " "
    ++ intSerialize ps.alpha_test_mode ++ " " ++ intSerialize ps.light_cfg_index
    ++ " " ++ intSerialize ps.z_buffer_mode ++ "\n" ++ indent ++ ")"

/-- `_DistanceLevelSelectionSerializer.serialize`. -/
def dlevelSelectionSerialize (iu : String) (v : Int) (depth : Nat) : String :=
  getIndent iu depth ++ "dlevel_selection ( " ++ intSerialize v ++ " )"

/-- `_DistanceLevelHeaderSerializer.serialize`. -/
def distanceLevelHeaderSerialize (iu : String) (h : DistanceLevelHeader)
    (depth : Nat) : String :=
  let indent := getIndent iu depth
  let dlevelSelectionBlock := dlevelSelectionSerialize iu h.dlevel_selection (depth + 1)
  let hierarchyBlock := serializeItemsInBlock iu h.hierarchy "hierarchy"
    (fun i _ => intSerialize i) (depth + 1) none 1 false false
  indent ++ "distance_level_header (\n" ++ dlevelSelectionBlock ++ "\n"
    ++ hierarchyBlock ++ "\n" ++ indent ++ ")"

/-- `_DistanceLevelSerializer.serialize`; the sub-object list serializer is
commented out in the source, so `subobject_block` is the empty string. -/
def distanceLevelSerialize (iu : String) (dl : DistanceLevel) (depth : Nat) : String :=
  let indent := getIndent iu depth
  let headerBlock := distanceLevelHeaderSerialize iu dl.distance_level_header (depth + 1)
  let subobjectBlock := ""
  indent ++ "distance_level (\n" ++ headerBlock ++ "\n" ++ subobjectBlock
    ++ "\n" ++ indent ++ ")"

/-- `_DistanceLevelsHeaderSerializer.serialize`. -/
def distanceLevelsHeaderSerialize (iu : String) (h : DistanceLevelsHeader)
    (depth : Nat) : String :=
  getIndent iu depth ++ "distance_levels_header ( " ++ intSerialize h.dlevel_bias ++ " )"

/-- `_LodControlSerializer.serialize`. -/
def lodControlSerialize (iu : String) (lc : LodControl) (depth : Nat) : String :=
  let indent := getIndent iu depth
  let dlevelsHeaderBlock := distanceLevelsHeaderSerialize iu lc.distance_levels_header
    (depth + 1)
  let dlevelsBlock := serializeItemsInBlock iu lc.distance_levels "distance_levels"
    (distanceLevelSerialize iu) (depth + 1) (some 1) 1 true true
  indent ++ "lod_control (\n" ++ dlevelsHeaderBlock ++ "\n" ++ dlevelsBlock
    ++ "\n" ++ indent ++ ")"

/-- `_ShapeSerializer.serialize`: every block of the shape is rendered in
grammar order, and then the final f-string is evaluated.  That f-string
names the local `animations_block`, which is bound nowhere in the method
(encoder.py line 642), so evaluating it raises `NameError` before any
string is returned (on interpreters older than 3.12 the backslash inside
the f-string expression is already a syntax error).  The computed blocks
are therefore dead values. -/
def shapeSerialize (iu : String) (s : Shape) (depth : Nat) : Except PErr String :=
  let innerDepth := depth + 1
  let _shapeHeaderBlock := shapeHeaderSerialize iu s.shape_header innerDepth
  let _volumesBlock := serializeItemsInBlock iu s.volumes "volumes"
    (volSphereSerialize iu) innerDepth (some 1) 1 true true
  let _shaderNamesBlock := serializeItemsInBlock iu s.shader_names "shader_names"
    (namedShaderSerialize iu) innerDepth (some 1) 1 true true
  let _textureFilterNamesBlock := serializeItemsInBlock iu s.texture_filter_names
    "texture_filter_names" (namedFilterModeSerialize iu) innerDepth (some 1) 1 true true
  let _pointsBlock := serializeItemsInBlock iu s.points "points"
    (pointSerialize iu) innerDepth (some 1) 1 true true
  let _uvPointsBlock := serializeItemsInBlock iu s.uv_points "uv_points"
    (uvPointSerialize iu) innerDepth (some 1) 1 true true
  let _normalsBlock := serializeItemsInBlock iu s.normals "normals"
    (vectorSerialize iu) innerDepth (some 1) 1 true true
  let _sortVectorsBlock := serializeItemsInBlock iu s.sort_vectors "sort_vectors"
    (vectorSerialize iu) innerDepth (some 1) 1 true true
  let _coloursBlock := serializeItemsInBlock iu s.colours "colours"
    (colourSerialize iu) innerDepth (some 1) 1 true true
  let _matricesBlock := serializeItemsInBlock iu s.matrices "matrices"
    (matrixSerialize iu) innerDepth (some 1) 1 true true
  let _imagesBlock := serializeItemsInBlock iu s.images "images"
    (imageSerialize iu) innerDepth (some 1) 1 true true
  let _texturesBlock := serializeItemsInBlock iu s.textures "textures"
    (textureSerialize iu) innerDepth (some 1) 1 true true
  let _lightMaterialsBlock := serializeItemsInBlock iu s.light_materials
    "light_materials" (lightMaterialSerialize iu) innerDepth (some 1) 1 true true
  let _lightModelCfgsBlock := serializeItemsInBlock iu s.light_model_cfgs
    "light_model_cfgs" (lightModelCfgSerialize iu) innerDepth (some 1) 1 true true
  let _vtxStatesBlock := serializeItemsInBlock iu s.vtx_states "vtx_states"
    (vtxStateSerialize iu) innerDepth (some 1) 1 true true
  let _primStatesBlock := serializeItemsInBlock iu s.prim_states "prim_states"
    (primStateSerialize iu) innerDepth (some 1) 1 true true
  let _lodControlsBlock := serializeItemsInBlock iu s.lod_controls "lod_controls"
    (lodControlSerialize iu) innerDepth (some 1) 1 true true
  .error (.nameError "animations_block")

/-- `ShapeEncoder.encode`: signature line with byte-order mark, the
serialized body, a trailing newline — when `serialize` returns at all. -/
def shapeEncode (iu : String) (s : Shape) : Except PErr String :=
  (shapeSerialize iu s 0).map
    (fun text => "\uFEFF" ++ "SIMISA@@@@@@@@@@JINX0s1t______\n\n" ++ text ++ "\n")

/-! ## File-type detection (shapeio.py `_detect_encoding`, `is_compressed`)

Raw file bytes are modelled as `List Nat` (each < 256). -/

/-- `bytes.startswith`. -/
def bytesPrefix (p : List Nat) (b : List Nat) : Bool := List.isPrefixOf p b

/-- `_detect_encoding`: inspect the first 4 bytes (BOMs, then zero-byte
heuristics). -/
def detectEncoding (bytes : List Nat) : String :=
  let b := bytes.take 4
  if bytesPrefix [0x00, 0x00, 0xFE, 0xFF] b || bytesPrefix [0xFF, 0xFE, 0x00, 0x00] b then
    "utf-32"
  else if bytesPrefix [0xFE, 0xFF] b || bytesPrefix [0xFF, 0xFE] b then "utf-16"
  else if bytesPrefix [0xEF, 0xBB, 0xBF] b then "utf-8-sig"
  else
    match b with
    | b0 :: b1 :: b2 :: b3 :: _ =>
        if b0 = 0 then (if b1 ≠ 0 then "utf-16-be" else "utf-32-be")
        else if b1 = 0 then (if b2 ≠ 0 ∨ b3 ≠ 0 then "utf-16-le" else "utf-32-le")
        else "utf-8"
    | [b0, b1] =>
        if b0 = 0 then "utf-16-be" else if b1 = 0 then "utf-16-le" else "utf-8"
    | _ => "utf-8"

/-- A UTF-8 continuation byte. -/
def isContB (n : Nat) : Bool := 0x80 ≤ n && n ≤ 0xBF

/-- Strict UTF-8 decoding (as CPython's `utf-8` codec: overlong forms,
surrogates and out-of-range sequences are errors). -/
def utf8DecodeAux : Nat → List Nat → Option (List Char)
  | 0, _ => none
  | _ + 1, [] => some []
  | fuel + 1, b :: rest =>
      if b < 0x80 then (utf8DecodeAux fuel rest).map (Char.ofNat b :: ·)
      else if 0xC2 ≤ b && b ≤ 0xDF then
        match rest with
        | c1 :: r =>
            if isContB c1 then
              (utf8DecodeAux fuel r).map
                (Char.ofNat ((b - 0xC0) * 0x40 + (c1 - 0x80)) :: ·)
            else none
        | _ => none
      else if 0xE0 ≤ b && b ≤ 0xEF then
        match rest with
        | c1 :: c2 :: r =>
            let lo1 := if b = 0xE0 then 0xA0 else 0x80
            let hi1 := if b = 0xED then 0x9F else 0xBF
            if lo1 ≤ c1 && c1 ≤ hi1 && isContB c2 then
              (utf8DecodeAux fuel r).map
                (Char.ofNat ((b - 0xE0) * 0x1000 + (c1 - 0x80) * 0x40 + (c2 - 0x80)) :: ·)
            else none
        | _ => none
      else if 0xF0 ≤ b && b ≤ 0xF4 then
        match rest with
        | c1 :: c2 :: c3 :: r =>
            let lo1 := if b = 0xF0 then 0x90 else 0x80
            let hi1 := if b = 0xF4 then 0x8F else 0xBF
            if lo1 ≤ c1 && c1 ≤ hi1 && isContB c2 && isContB c3 then
              (utf8DecodeAux fuel r).map
                (Char.ofNat ((b - 0xF0) * 0x40000 + (c1 - 0x80) * 0x1000
                  + (c2 - 0x80) * 0x40 + (c3 - 0x80)) :: ·)
            else none
        | _ => none
      else none

def utf8Decode (bytes : List Nat) : Option (List Char) :=
  utf8DecodeAux (bytes.length + 1) bytes

/-- The 30-character plain-text signature tested by `is_compressed`. -/
def plainSignature : List Char := "SIMISA@@@@@@@@@@JINX0s1t______".data

/-- `is_compressed` for a file whose sniffed encoding is `utf-8` (the
branch exercised by BOM-less mostly-ASCII files): open the file as text,
read the first 32 characters, return `False` when they start with the full
plain-text signature, `None` otherwise, and `True` exactly when text
decoding fails (`UnicodeDecodeError`); a decode failure anywhere in the
initial buffered read is modelled as failing the whole decode. -/
def isCompressedUtf8 (bytes : List Nat) : Option Bool :=
  match utf8Decode bytes with
  | none => some true
  | some t =>
      if List.isPrefixOf plainSignature (t.take 32) then some false else none

/-! ## Concrete example documents -/

/-- A minimal complete shape document: every table block present with
count 0. -/
def exampleShapeText : String :=
  "shape ( shape_header ( 00000000 00000000 ) volumes ( 0 ) shader_names ( 0 ) "
    ++ "texture_filter_names ( 0 ) points ( 0 ) uv_points ( 0 ) normals ( 0 ) "
    ++ "sort_vectors ( 0 ) colours ( 0 ) matrices ( 0 ) images ( 0 ) textures ( 0 ) "
    ++ "light_materials ( 0 ) light_model_cfgs ( 0 ) vtx_states ( 0 ) prim_states ( 0 ) )"

/-- The record `exampleShapeText` decodes to. -/
def exampleShape : Shape :=
  ⟨⟨"00000000", "00000000"⟩, [], [], [], [], [], [], [], [], [], [], [], [], [],
    [], [], [], []⟩

/-! ## General lemmas -/

theorem String.ext' {a b : String} (h : a.data = b.data) : a = b := by
  cases a; cases b; simp only at h; rw [h]

theorem mapME_ok_length {α β : Type} (f : α → Except PErr β) :
    ∀ (l : List α) (r : List β), mapME f l = .ok r → r.length = l.length := by
  intro l
  induction l with
  | nil =>
      intro r h
      simp only [mapME] at h
      cases h
      rfl
  | cons a as ih =>
      intro r h
      simp only [mapME, bind, Except.bind, pure, Except.pure] at h
      cases hfa : f a with
      | error e => rw [hfa] at h; simp at h
      | ok b =>
          rw [hfa] at h
          cases hbs : mapME f as with
          | error e => rw [hbs] at h; simp at h
          | ok bs =>
              rw [hbs] at h
              cases h
              simp [ih bs hbs]

theorem takeWhile_append_cons (p : Char → Bool) (l1 : List Char) (c : Char)
    (l2 : List Char) (h1 : ∀ x ∈ l1, p x = true) (hc : p c = false) :
    (l1 ++ c :: l2).takeWhile p = l1 := by
  induction l1 with
  | nil => simp [List.takeWhile_cons, hc]
  | cons a l ih =>
      simp only [List.cons_append, List.takeWhile_cons,
        h1 a (List.mem_cons_self a l), if_true]
      rw [ih (fun x hx => h1 x (List.mem_cons_of_mem a hx))]

theorem dropWhile_append_cons (p : Char → Bool) (l1 : List Char) (c : Char)
    (l2 : List Char) (h1 : ∀ x ∈ l1, p x = true) (hc : p c = false) :
    (l1 ++ c :: l2).dropWhile p = c :: l2 := by
  induction l1 with
  | nil => simp [List.dropWhile_cons, hc]
  | cons a l ih =>
      simp only [List.cons_append, List.dropWhile_cons,
        h1 a (List.mem_cons_self a l), if_true]
      exact ih (fun x hx => h1 x (List.mem_cons_of_mem a hx))

theorem isNumChar_not_ws (c : Char) (h : isNumChar c = true) : isWs c = false := by
  simp only [isWs, Bool.or_eq_false_iff, beq_eq_false_iff_ne, ne_eq]
  refine ⟨⟨⟨⟨⟨?_, ?_⟩, ?_⟩, ?_⟩, ?_⟩, ?_⟩ <;>
    rintro rfl <;> exact absurd h (by decide)

theorem pyStrip_eq_self (t : List Char)
    (h1 : ∀ c, t.head? = some c → isWs c = false)
    (h2 : ∀ c, t.getLast? = some c → isWs c = false) : pyStrip t = t := by
  unfold pyStrip stripL
  have e1 : t.dropWhile isWs = t := by
    cases t with
    | nil => rfl
    | cons a l => simp [List.dropWhile_cons, h1 a rfl]
  rw [e1]
  have e2 : t.reverse.dropWhile isWs = t.reverse := by
    cases ht : t.reverse with
    | nil => rfl
    | cons a l =>
        have ha : t.getLast? = some a := by
          rw [← List.head?_reverse, ht]; rfl
        simp [List.dropWhile_cons, h2 a ha]
  rw [e2, List.reverse_reverse]

theorem eatClassPlus_token (p : Char → Bool) (tok : List Char) (c : Char)
    (rest : List Char) (hne : tok ≠ []) (hall : ∀ x ∈ tok, p x = true)
    (hc : p c = false) :
    eatClassPlus p (tok ++ c :: rest) = some (tok, c :: rest) := by
  unfold eatClassPlus
  rw [takeWhile_append_cons p tok c rest hall hc,
    dropWhile_append_cons p tok c rest hall hc]
  simp [hne]

theorem eatWsPlus_space_token (tok rest : List Char) (hne : tok ≠ [])
    (hall : ∀ x ∈ tok, isNumChar x = true) :
    eatWsPlus (' ' :: (tok ++ rest)) = some (tok ++ rest) := by
  cases tok with
  | nil => exact absurd rfl hne
  | cons t0 tok' =>
      have h0 : isWs t0 = false :=
        isNumChar_not_ws t0 (hall t0 (List.mem_cons_self t0 tok'))
      have hsp : isWs ' ' = true := rfl
      simp [eatWsPlus, hsp, List.dropWhile_cons, h0]

/-! ## Character facts about the float formatter -/

theorem natDigitsAux_digits :
    ∀ (fuel n : Nat), ∀ c ∈ natDigitsAux fuel n, c.isDigit = true := by
  intro fuel
  induction fuel with
  | zero => intro n c hc; simp [natDigitsAux] at hc
  | succ f ih =>
      intro n c hc
      simp only [natDigitsAux] at hc
      split at hc
      · rename_i h10
        simp only [List.mem_singleton] at hc
        subst hc
        interval_cases n <;> decide
      · rw [List.mem_append, List.mem_singleton] at hc
        rcases hc with hc | hc
        · exact ih _ c hc
        · subst hc
          have hm : n % 10 < 10 := Nat.mod_lt _ (by decide)
          generalize n % 10 = m at hm ⊢
          interval_cases m <;> decide

theorem natDigits_digits (n : Nat) : ∀ c ∈ natDigits n, c.isDigit = true :=
  natDigitsAux_digits (n + 1) n

theorem natDigits_ne_nil (n : Nat) : natDigits n ≠ [] := by
  unfold natDigits natDigitsAux
  split
  · simp
  · simp

theorem dropTrailingZeros_subset (l : List Char) :
    ∀ c ∈ dropTrailingZeros l, c ∈ l := by
  intro c hc
  unfold dropTrailingZeros at hc
  rw [List.mem_reverse] at hc
  exact List.mem_reverse.mp ((List.dropWhile_sublist _).subset hc)

theorem isNumChar_of_isDigit (c : Char) (h : c.isDigit = true) :
    isNumChar c = true := by
  simp [isNumChar, h]

theorem g6Fixed_numChar (ds : List Char) (e : Int)
    (hds : ∀ c ∈ ds, c.isDigit = true) :
    ∀ c ∈ g6Fixed ds e, isNumChar c = true := by
  intro c hc
  unfold g6Fixed at hc
  split at hc
  · rw [List.mem_append] at hc
    rcases hc with hc | hc
    · exact isNumChar_of_isDigit c (hds c (List.take_subset _ _ hc))
    · split at hc
      · simp at hc
      · rcases List.mem_cons.mp hc with rfl | hc
        · decide
        · exact isNumChar_of_isDigit c
            (hds c (List.drop_subset _ _ (dropTrailingZeros_subset _ c hc)))
  · rcases List.mem_cons.mp hc with rfl | hc
    · decide
    rcases List.mem_cons.mp hc with rfl | hc
    · decide
    rcases List.mem_append.mp (dropTrailingZeros_subset _ c hc) with hc | hc
    · rw [List.eq_of_mem_replicate hc]; decide
    · exact isNumChar_of_isDigit c (hds c hc)

theorem g6Fixed_ne_nil (ds : List Char) (e : Int) (hne : ds ≠ []) :
    g6Fixed ds e ≠ [] := by
  unfold g6Fixed
  split
  · cases ds with
    | nil => exact absurd rfl hne
    | cons d l => simp [List.take_succ_cons]
  · simp

theorem g6Sci_numChar (ds : List Char) (e : Int)
    (hds : ∀ c ∈ ds, c.isDigit = true) :
    ∀ c ∈ g6Sci ds e, isNumChar c = true := by
  intro c hc
  cases ds with
  | nil =>
      unfold g6Sci at hc
      rcases List.mem_singleton.mp hc with rfl
      decide
  | cons d rest =>
      unfold g6Sci at hc
      simp only at hc
      have heds : ∀ x ∈ (if (natDigits e.natAbs).length < 2
          then '0' :: natDigits e.natAbs else natDigits e.natAbs), x.isDigit = true := by
        intro x hx
        split at hx
        · rcases List.mem_cons.mp hx with rfl | hx
          · decide
          · exact natDigits_digits _ x hx
        · exact natDigits_digits _ x hx
      rw [List.mem_append] at hc
      rcases hc with hc | hc
      · rcases List.mem_cons.mp hc with rfl | hc
        · exact isNumChar_of_isDigit c (hds c (List.mem_cons_self _ _))
        · split at hc
          · simp at hc
          · rcases List.mem_cons.mp hc with rfl | hc
            · decide
            · exact isNumChar_of_isDigit c
                (hds c (List.mem_cons_of_mem d (dropTrailingZeros_subset _ c hc)))
      · rcases List.mem_cons.mp hc with rfl | hc
        · decide
        rcases List.mem_cons.mp hc with rfl | hc
        · split <;> decide
        · exact isNumChar_of_isDigit c (heds c hc)

theorem g6Sci_ne_nil (ds : List Char) (e : Int) : g6Sci ds e ≠ [] := by
  cases ds with
  | nil => simp [g6Sci]
  | cons d rest => simp [g6Sci]

theorem g6Assembled_facts (sgn : List Char)
    (hsgn : ∀ c ∈ sgn, isNumChar c = true) (ds : List Char) (hne : ds ≠ [])
    (hds : ∀ c ∈ ds, c.isDigit = true) (e : Int) :
    (sgn ++ (if -4 ≤ e ∧ e < 6 then g6Fixed ds e else g6Sci ds e)) ≠ [] ∧
    ∀ c ∈ sgn ++ (if -4 ≤ e ∧ e < 6 then g6Fixed ds e else g6Sci ds e),
      isNumChar c = true := by
  constructor
  · intro habs
    rcases List.append_eq_nil.mp habs with ⟨-, h2⟩
    revert h2
    split
    · exact g6Fixed_ne_nil ds e hne
    · exact g6Sci_ne_nil ds e
  · intro c hc
    rcases List.mem_append.mp hc with hc | hc
    · exact hsgn c hc
    · revert hc
      split
      · exact fun hc => g6Fixed_numChar ds e hds c hc
      · exact fun hc => g6Sci_numChar ds e hds c hc

theorem sgnStr_numChar (x : ℚ) :
    ∀ c ∈ (if x < 0 then ['-'] else []), isNumChar c = true := by
  intro c hc
  split at hc
  · rcases List.mem_singleton.mp hc with rfl; decide
  · simp at hc

theorem formatG6_numChar (x : ℚ) :
    (formatG6 x).data ≠ [] ∧ ∀ c ∈ (formatG6 x).data, isNumChar c = true := by
  unfold formatG6
  split
  · exact ⟨by decide, by decide⟩
  · exact g6Assembled_facts _ (sgnStr_numChar x) _ (natDigits_ne_nil _)
      (natDigits_digits _) _

/-! ## Case lemmas for `pyLower` -/

theorem charLe_iff (a b : Char) : (a ≤ b) ↔ a.toNat ≤ b.toNat := by
  simp [Char.le_def, UInt32.le_def, Char.toNat, UInt32.toNat, BitVec.le_def]

theorem toNat_ofNat_valid (n : Nat) (h : n < 55296) : (Char.ofNat n).toNat = n := by
  unfold Char.ofNat
  rw [dif_pos (by simp [Nat.isValidChar, UInt32.isValidChar]; omega)]
  simp [Char.ofNatAux, Char.toNat, UInt32.toNat, BitVec.toNat_ofNatLt]

theorem pyLower_idem (c : Char) : pyLower (pyLower c) = pyLower c := by
  by_cases h : ('A' ≤ c && c ≤ 'Z') = true
  · have hb := Bool.and_eq_true_iff.mp h
    have h1 : 65 ≤ c.toNat := (charLe_iff 'A' c).mp (of_decide_eq_true hb.1)
    have h2 : c.toNat ≤ 90 := (charLe_iff c 'Z').mp (of_decide_eq_true hb.2)
    have ht : (Char.ofNat (c.toNat + 32)).toNat = c.toNat + 32 :=
      toNat_ofNat_valid _ (by omega)
    have hinner : pyLower c = Char.ofNat (c.toNat + 32) := by
      unfold pyLower; rw [if_pos h]
    rw [hinner]
    have hcond : ('A' ≤ Char.ofNat (c.toNat + 32)
        && Char.ofNat (c.toNat + 32) ≤ 'Z') = false := by
      have hz : ¬ (Char.ofNat (c.toNat + 32) ≤ 'Z') := by
        rw [charLe_iff, ht]
        have h90 : 'Z'.toNat = 90 := rfl
        omega
      rw [Bool.and_eq_false_iff]
      right
      exact decide_eq_false hz
    unfold pyLower
    rw [if_neg (by simp [hcond])]
  · have hc : pyLower c = c := by unfold pyLower; rw [if_neg h]
    rw [hc, hc]

theorem lowerAll_idem (l : List Char) : lowerAll (lowerAll l) = lowerAll l := by
  unfold lowerAll
  rw [List.map_map]
  exact List.map_congr_left (fun c _ => pyLower_idem c)

/-! ## Semantics of the 6-significant-digit float format -/

theorem natLog10Aux_spec :
    ∀ fuel n : Nat, 0 < n → n ≤ fuel →
      10 ^ natLog10Aux fuel n ≤ n ∧ n < 10 ^ (natLog10Aux fuel n + 1) := by
  intro fuel
  induction fuel with
  | zero => intro n h1 h2; omega
  | succ f ih =>
      intro n h1 h2
      simp only [natLog10Aux]
      split
      · rename_i h10
        simp only [pow_zero, pow_one]
        omega
      · rename_i h10
        push_neg at h10
        have hd1 : 0 < n / 10 := Nat.div_pos h10 (by norm_num)
        have hd2 : n / 10 ≤ f := by omega
        obtain ⟨hl, hu⟩ := ih (n / 10) hd1 hd2
        rw [pow_succ] at hu
        constructor
        · rw [pow_succ]
          omega
        · rw [pow_succ, pow_succ]
          omega

theorem natLog10_spec (n : Nat) (h : 0 < n) :
    10 ^ natLog10 n ≤ n ∧ n < 10 ^ (natLog10 n + 1) :=
  natLog10Aux_spec n n h le_rfl

theorem natLog10Aux_irrel :
    ∀ f1 f2 n : Nat, n ≤ f1 → n ≤ f2 → natLog10Aux f1 n = natLog10Aux f2 n := by
  intro f1
  induction f1 with
  | zero =>
      intro f2 n h1 h2
      interval_cases n
      cases f2 <;> rfl
  | succ f ih =>
      intro f2 n h1 h2
      cases f2 with
      | zero => interval_cases n; rfl
      | succ g =>
          simp only [natLog10Aux]
          split
          · rfl
          · rename_i h10
            push_neg at h10
            rw [ih g (n / 10) (by omega) (by omega)]

theorem natLog10_step (n : Nat) (h : 10 ≤ n) :
    natLog10 n = natLog10 (n / 10) + 1 := by
  obtain ⟨m, rfl⟩ : ∃ m, n = m + 1 := ⟨n - 1, by omega⟩
  show natLog10Aux (m + 1) (m + 1) = _
  unfold natLog10Aux
  rw [if_neg (by omega)]
  congr 1
  exact natLog10Aux_irrel m ((m + 1) / 10) ((m + 1) / 10) (by omega) le_rfl

theorem natLog10_eq_of_bounds (n k : Nat) (h1 : 10 ^ k ≤ n)
    (h2 : n < 10 ^ (k + 1)) : natLog10 n = k := by
  have h0 : 0 < n := lt_of_lt_of_le (pow_pos (by norm_num) k) h1
  obtain ⟨l1, l2⟩ := natLog10_spec n h0
  by_contra hne
  rcases Nat.lt_or_ge (natLog10 n) k with hlt | hge
  · have hp : (10 : ℕ) ^ (natLog10 n + 1) ≤ 10 ^ k :=
      Nat.pow_le_pow_right (by norm_num) (by omega)
    omega
  · have hgt : k < natLog10 n := by omega
    have hp : (10 : ℕ) ^ (k + 1) ≤ 10 ^ natLog10 n :=
      Nat.pow_le_pow_right (by norm_num) (by omega)
    omega

theorem qLog10_spec (q : ℚ) (hq : 0 < q) :
    (10 : ℚ) ^ qLog10 q ≤ q ∧ q < (10 : ℚ) ^ (qLog10 q + 1) := by
  have hnum : 0 < q.num := Rat.num_pos.mpr hq
  have hn : 0 < q.num.natAbs := Int.natAbs_pos.mpr (ne_of_gt hnum)
  have hd : 0 < q.den := q.pos
  obtain ⟨hn1, hn2⟩ := natLog10_spec q.num.natAbs hn
  obtain ⟨hd1, hd2⟩ := natLog10_spec q.den hd
  have hqeq : q = (q.num.natAbs : ℚ) / (q.den : ℚ) := by
    conv_lhs => rw [← Rat.num_div_den q]
    rw [show ((q.num : ℚ)) = ((q.num.natAbs : ℚ)) from by
      rw [Int.cast_natAbs, abs_of_nonneg hnum.le]]
  have hten : (0 : ℚ) < 10 := by norm_num
  have htenne : (10 : ℚ) ≠ 0 := by norm_num
  set ln := natLog10 q.num.natAbs with hln
  set ld := natLog10 q.den with hld
  have hup : q < (10 : ℚ) ^ ((ln : ℤ) - ld + 1) := by
    have hkey : (q.num.natAbs : ℚ) / (q.den : ℚ)
        < (10 : ℚ) ^ (ln + 1) / (10 : ℚ) ^ ld := by
      rw [div_lt_div_iff₀ (by exact_mod_cast hd) (by positivity)]
      have hnat : q.num.natAbs * 10 ^ ld < 10 ^ (ln + 1) * q.den := by
        calc q.num.natAbs * 10 ^ ld
            < 10 ^ (ln + 1) * 10 ^ ld :=
              (Nat.mul_lt_mul_right (pow_pos (by norm_num) ld)).mpr hn2
          _ ≤ 10 ^ (ln + 1) * q.den := Nat.mul_le_mul_left _ hd1
      exact_mod_cast hnat
    have heq : (10 : ℚ) ^ ((ln : ℤ) - ld + 1)
        = (10 : ℚ) ^ (ln + 1) / (10 : ℚ) ^ ld := by
      rw [show ((ln : ℤ) - ld + 1) = ((ln + 1 : ℕ) : ℤ) - ((ld : ℕ) : ℤ) by
        push_cast; ring]
      rw [zpow_sub₀ htenne, zpow_natCast, zpow_natCast]
    rw [heq, hqeq]
    exact hkey
  have hlo : (10 : ℚ) ^ ((ln : ℤ) - ld - 1) < q := by
    have hkey : (10 : ℚ) ^ ln / (10 : ℚ) ^ (ld + 1)
        < (q.num.natAbs : ℚ) / (q.den : ℚ) := by
      rw [div_lt_div_iff₀ (by positivity) (by exact_mod_cast hd)]
      have hnat : 10 ^ ln * q.den < q.num.natAbs * 10 ^ (ld + 1) := by
        calc 10 ^ ln * q.den
            < 10 ^ ln * 10 ^ (ld + 1) :=
              (Nat.mul_lt_mul_left (pow_pos (by norm_num) ln)).mpr hd2
          _ ≤ q.num.natAbs * 10 ^ (ld + 1) := Nat.mul_le_mul_right _ hn1
      exact_mod_cast hnat
    have heq : (10 : ℚ) ^ ((ln : ℤ) - ld - 1)
        = (10 : ℚ) ^ ln / (10 : ℚ) ^ (ld + 1) := by
      rw [show ((ln : ℤ) - ld - 1) = ((ln : ℕ) : ℤ) - ((ld + 1 : ℕ) : ℤ) by
        push_cast; ring]
      rw [zpow_sub₀ htenne, zpow_natCast, zpow_natCast]
    rw [heq, hqeq]
    exact hkey
  simp only [qLog10]
  rw [← hln, ← hld]
  split
  · rename_i hcase
    exact ⟨hcase, hup⟩
  · rename_i hcase
    push_neg at hcase
    constructor
    · exact le_of_lt (by
        have : (ln : ℤ) - ld - 1 = (ln : ℤ) - ld - 1 := rfl
        exact hlo)
    · rw [show ((ln : ℤ) - ld - 1 + 1) = (ln : ℤ) - ld by ring]
      exact hcase

theorem roundHalfEven_floor_bounds (q : ℚ) :
    ⌊q⌋ ≤ roundHalfEven q ∧ roundHalfEven q ≤ ⌊q⌋ + 1 := by
  simp only [roundHalfEven]
  split
  · exact ⟨le_refl _, by omega⟩
  · split
    · exact ⟨by omega, le_refl _⟩
    · split
      · exact ⟨le_refl _, by omega⟩
      · exact ⟨by omega, le_refl _⟩

theorem roundHalfEven_dist (q : ℚ) :
    |((roundHalfEven q : ℤ) : ℚ) - q| ≤ 1 / 2 := by
  have h1 := Int.floor_le q
  have h2 := Int.lt_floor_add_one q
  simp only [roundHalfEven]
  split
  · rename_i hr
    rw [abs_le]
    constructor <;> linarith
  · rename_i hr1
    push_neg at hr1
    split
    · rename_i hr2
      rw [abs_le]
      push_cast
      constructor <;> linarith
    · rename_i hr2
      push_neg at hr2
      have hr : q - (⌊q⌋ : ℚ) = 1 / 2 := le_antisymm hr2 hr1
      split
      · rw [abs_le]
        constructor <;> linarith
      · rw [abs_le]
        push_cast
        constructor <;> linarith

theorem digitsVal_foldl :
    ∀ (l : List Char) (acc : Nat),
      l.foldl (fun a c => 10 * a + (c.toNat - '0'.toNat)) acc
        = acc * 10 ^ l.length + digitsVal l := by
  intro l
  induction l with
  | nil => intro acc; simp [digitsVal]
  | cons c l ih =>
      intro acc
      simp only [List.foldl_cons, List.length_cons]
      rw [ih]
      have hdv : digitsVal (c :: l)
          = (c.toNat - '0'.toNat) * 10 ^ l.length + digitsVal l := by
        show List.foldl _ (10 * 0 + (c.toNat - '0'.toNat)) l = _
        rw [ih]
        ring_nf
      rw [hdv]
      ring

theorem digitsVal_append (u v : List Char) :
    digitsVal (u ++ v) = digitsVal u * 10 ^ v.length + digitsVal v := by
  show List.foldl _ 0 (u ++ v) = _
  rw [List.foldl_append]
  exact digitsVal_foldl v (digitsVal u)

theorem digitsVal_cons (c : Char) (l : List Char) :
    digitsVal (c :: l) = (c.toNat - '0'.toNat) * 10 ^ l.length + digitsVal l := by
  show List.foldl _ (10 * 0 + (c.toNat - '0'.toNat)) l = _
  rw [digitsVal_foldl]
  ring_nf

theorem digitsVal_replicate_zero (k : Nat) :
    digitsVal (List.replicate k '0') = 0 := by
  induction k with
  | zero => rfl
  | succ n ih =>
      rw [List.replicate_succ, digitsVal_cons, ih]
      norm_num

theorem dropTrailingZeros_decomp (l : List Char) :
    l = dropTrailingZeros l
        ++ List.replicate (l.reverse.takeWhile (· == '0')).length '0' := by
  unfold dropTrailingZeros
  have hall : ∀ c ∈ l.reverse.takeWhile (· == '0'), c = '0' := by
    intro c hc
    simpa using List.mem_takeWhile_imp hc
  calc l = l.reverse.reverse := (List.reverse_reverse l).symm
    _ = (l.reverse.takeWhile (· == '0') ++ l.reverse.dropWhile (· == '0')).reverse := by
        rw [List.takeWhile_append_dropWhile]
    _ = (l.reverse.dropWhile (· == '0')).reverse
          ++ (l.reverse.takeWhile (· == '0')).reverse := by
        rw [List.reverse_append]
    _ = _ := by
        congr 1
        conv_lhs => rw [List.eq_replicate_of_mem hall]
        rw [List.reverse_replicate]

theorem digitsVal_dtz (l : List Char) :
    ∃ k, (dropTrailingZeros l).length + k = l.length ∧
      digitsVal l = digitsVal (dropTrailingZeros l) * 10 ^ k := by
  refine ⟨(l.reverse.takeWhile (· == '0')).length, ?_, ?_⟩
  · conv_rhs => rw [dropTrailingZeros_decomp l]
    simp
  · conv_lhs => rw [dropTrailingZeros_decomp l]
    rw [digitsVal_append, digitsVal_replicate_zero, List.length_replicate]
    omega

theorem dtz_ne_nil_of_pos (l : List Char) (h : 0 < digitsVal l) :
    dropTrailingZeros l ≠ [] := by
  intro hnil
  obtain ⟨k, -, hv⟩ := digitsVal_dtz l
  rw [hnil] at hv
  have h0 : digitsVal ([] : List Char) = 0 := rfl
  rw [h0] at hv
  omega

theorem natDigitsAux_spec :
    ∀ fuel n : Nat, n < fuel →
      digitsVal (natDigitsAux fuel n) = n ∧
      (natDigitsAux fuel n).length = natLog10 n + 1 := by
  intro fuel
  induction fuel with
  | zero => intro n h; omega
  | succ f ih =>
      intro n h
      simp only [natDigitsAux]
      split
      · rename_i h10
        constructor
        · rw [digitsVal_cons]
          have ht : (Char.ofNat (48 + n)).toNat = 48 + n :=
            toNat_ofNat_valid _ (by omega)
          have h0 : '0'.toNat = 48 := rfl
          simp [ht, h0, digitsVal]
        · have hl0 : natLog10 n = 0 := by
            cases n with
            | zero => rfl
            | succ m =>
                show natLog10Aux (m + 1) (m + 1) = 0
                unfold natLog10Aux
                rw [if_pos h10]
          simp [hl0]
      · rename_i h10
        push_neg at h10
        have hrec := ih (n / 10) (by omega)
        constructor
        · rw [digitsVal_append, hrec.1]
          have hone : digitsVal [Char.ofNat (48 + n % 10)] = n % 10 := by
            rw [digitsVal_cons]
            have ht : (Char.ofNat (48 + n % 10)).toNat = 48 + n % 10 :=
              toNat_ofNat_valid _ (by omega)
            have h0 : '0'.toNat = 48 := rfl
            simp [ht, h0, digitsVal]
          rw [hone]
          simp only [List.length_singleton, pow_one]
          omega
        · rw [List.length_append, hrec.2, List.length_singleton,
            natLog10_step n h10]

theorem natDigits_spec (n : Nat) :
    digitsVal (natDigits n) = n ∧ (natDigits n).length = natLog10 n + 1 :=
  natDigitsAux_spec (n + 1) n (by omega)

theorem takeWhile_all (p : Char → Bool) (l : List Char)
    (h : ∀ c ∈ l, p c = true) : l.takeWhile p = l := by
  induction l with
  | nil => rfl
  | cons c l ih =>
      rw [List.takeWhile_cons, if_pos (h c (List.mem_cons_self _ _))]
      rw [ih (fun x hx => h x (List.mem_cons_of_mem c hx))]

theorem dropWhile_all (p : Char → Bool) (l : List Char)
    (h : ∀ c ∈ l, p c = true) : l.dropWhile p = [] := by
  induction l with
  | nil => rfl
  | cons c l ih =>
      rw [List.dropWhile_cons, if_pos (h c (List.mem_cons_self _ _))]
      exact ih (fun x hx => h x (List.mem_cons_of_mem c hx))

/-- The float pattern's sign branch on a digit-headed fragment. -/
theorem floatSignMatch_digit (c0 : Char) (t : List Char) (hc0 : c0.isDigit = true) :
    (match c0 :: t with
      | '-' :: r => ((-1 : ℚ), r)
      | '+' :: r => ((1 : ℚ), r)
      | r => ((1 : ℚ), r)) = (1, c0 :: t) := by
  split
  · rename_i heq
    injection heq with h1 h2
    rw [h1] at hc0
    exact absurd hc0 (by decide)
  · rename_i heq
    injection heq with h1 h2
    rw [h1] at hc0
    exact absurd hc0 (by decide)
  · rfl

theorem floatSignMatch_minus (t : List Char) :
    (match '-' :: t with
      | '-' :: r => ((-1 : ℚ), r)
      | '+' :: r => ((1 : ℚ), r)
      | r => ((1 : ℚ), r)) = (-1, t) := rfl

theorem floatExpSignMatch_minus (t : List Char) :
    (match '-' :: t with
      | '-' :: rr => (true, rr)
      | '+' :: rr => (false, rr)
      | rr => (false, rr)) = (true, t) := rfl

theorem floatMantMatch_e {motive : List Char → Sort _} (t : List Char)
    (h1 : (r : List Char) → motive ('.' :: r)) (h2 : (r : List Char) → motive r) :
    floatVal?.match_2 motive ('e' :: t) h1 h2 = h2 ('e' :: t) := rfl

theorem floatExpSignMatch_plus (t : List Char) :
    (match '+' :: t with
      | '-' :: rr => (true, rr)
      | '+' :: rr => (false, rr)
      | rr => (false, rr)) = (false, t) := rfl

/-- `floatVal?` on `[sign] digits [. digits]` (the fixed-notation shapes the
serializer emits). -/
theorem floatVal?_fixed (neg : Bool) (ip fp : List Char)
    (hip : ip ≠ []) (hipd : ∀ c ∈ ip, c.isDigit = true)
    (hfpd : ∀ c ∈ fp, c.isDigit = true) :
    floatVal? ((if neg then ['-'] else []) ++ ip
        ++ (if fp = [] then [] else '.' :: fp))
      = some ((if neg then (-1 : ℚ) else 1)
          * ((digitsVal ip : ℚ) + (digitsVal fp : ℚ) / 10 ^ fp.length)) := by
  obtain ⟨c0, ip2, rfl⟩ := List.exists_cons_of_ne_nil hip
  have hc0 : c0.isDigit = true := hipd c0 (List.mem_cons_self _ _)
  have hipd2 : ∀ x ∈ ip2, x.isDigit = true :=
    fun x hx => hipd x (List.mem_cons_of_mem c0 hx)
  have hdig0 : digitsVal ([] : List Char) = 0 := rfl
  by_cases hfp : fp = []
  · subst hfp
    have htake : List.takeWhile (fun x => x.isDigit) (c0 :: ip2) = c0 :: ip2 :=
      takeWhile_all _ _ hipd
    have hdrop : List.dropWhile (fun x => x.isDigit) (c0 :: ip2) = [] :=
      dropWhile_all _ _ hipd
    have hin : ((if neg then ['-'] else []) ++ (c0 :: ip2)
        ++ (if ([] : List Char) = [] then [] else '.' :: []))
        = (if neg then ['-'] else []) ++ (c0 :: ip2) := by simp
    rw [hin]
    by_cases hneg : neg = true
    · simp only [if_pos hneg, List.cons_append, List.nil_append, List.append_nil]
      simp only [floatVal?, floatSignMatch_minus]
      rw [htake, hdrop]
      simp only [if_neg (List.cons_ne_nil c0 ip2), hdig0]
      norm_num
    · simp only [if_neg hneg, List.nil_append, List.append_nil]
      simp only [floatVal?, floatSignMatch_digit c0 ip2 hc0]
      rw [htake, hdrop]
      simp only [if_neg (List.cons_ne_nil c0 ip2), hdig0]
      norm_num
  · have htake : List.takeWhile (fun x => x.isDigit) (c0 :: (ip2 ++ '.' :: fp))
        = c0 :: ip2 := by
      rw [List.takeWhile_cons, if_pos hc0,
        takeWhile_append_cons _ _ _ _ hipd2 (by decide)]
    have hdrop : List.dropWhile (fun x => x.isDigit) (c0 :: (ip2 ++ '.' :: fp))
        = '.' :: fp := by
      rw [List.dropWhile_cons, if_pos hc0,
        dropWhile_append_cons _ _ _ _ hipd2 (by decide)]
    have htfp : List.takeWhile (fun x => x.isDigit) fp = fp :=
      takeWhile_all _ _ hfpd
    have hdfp : List.dropWhile (fun x => x.isDigit) fp = [] :=
      dropWhile_all _ _ hfpd
    by_cases hneg : neg = true
    · simp only [if_pos hneg, if_neg hfp, List.cons_append, List.nil_append]
      simp only [floatVal?, floatSignMatch_minus]
      rw [htake, hdrop]
      simp only [htfp, hdfp, if_neg hfp]
    · simp only [if_neg hneg, if_neg hfp, List.nil_append, List.cons_append]
      simp only [floatVal?, floatSignMatch_digit c0 (ip2 ++ '.' :: fp) hc0]
      rw [htake, hdrop]
      simp only [htfp, hdfp, if_neg hfp]

/-- `floatVal?` on `[sign] digits [. digits] e ± digits` (the scientific
shapes the serializer emits). -/
theorem floatVal?_sci (neg : Bool) (ip fp : List Char) (eneg : Bool)
    (eds : List Char) (hip : ip ≠ []) (hipd : ∀ c ∈ ip, c.isDigit = true)
    (hfpd : ∀ c ∈ fp, c.isDigit = true)
    (heds : eds ≠ []) (hedsd : ∀ c ∈ eds, c.isDigit = true) :
    floatVal? ((if neg then ['-'] else []) ++ ip
        ++ (if fp = [] then [] else '.' :: fp)
        ++ 'e' :: (if eneg then '-' else '+') :: eds)
      = some ((if neg then (-1 : ℚ) else 1)
          * ((digitsVal ip : ℚ) + (digitsVal fp : ℚ) / 10 ^ fp.length)
          * (if eneg then (1 : ℚ) / 10 ^ digitsVal eds
             else (10 : ℚ) ^ digitsVal eds)) := by
  obtain ⟨c0, ip2, rfl⟩ := List.exists_cons_of_ne_nil hip
  have hc0 : c0.isDigit = true := hipd c0 (List.mem_cons_self _ _)
  have hipd2 : ∀ x ∈ ip2, x.isDigit = true :=
    fun x hx => hipd x (List.mem_cons_of_mem c0 hx)
  have hdig0 : digitsVal ([] : List Char) = 0 := rfl
  have he : ('e' = 'e' ∨ 'e' = 'E') := Or.inl rfl
  have hall : List.all eds (fun x => x.isDigit) = true :=
    List.all_eq_true.mpr hedsd
  have hd : decide (eds ≠ []) = true := decide_eq_true heds
  have hcond : (decide (eds ≠ []) && List.all eds fun x => x.isDigit) = true := by
    rw [hd, hall]
    rfl
  by_cases hfp : fp = []
  · subst hfp
    have hin : ((if neg then ['-'] else []) ++ (c0 :: ip2)
        ++ (if ([] : List Char) = [] then [] else '.' :: [])
        ++ 'e' :: (if eneg then '-' else '+') :: eds)
        = (if neg then ['-'] else []) ++ (c0 :: ip2)
          ++ 'e' :: (if eneg then '-' else '+') :: eds := by simp
    rw [hin]
    have htake : List.takeWhile (fun x => x.isDigit)
        (c0 :: (ip2 ++ 'e' :: (if eneg then '-' else '+') :: eds)) = c0 :: ip2 := by
      rw [List.takeWhile_cons, if_pos hc0,
        takeWhile_append_cons _ _ _ _ hipd2 (by decide)]
    have hdrop : List.dropWhile (fun x => x.isDigit)
        (c0 :: (ip2 ++ 'e' :: (if eneg then '-' else '+') :: eds))
        = 'e' :: (if eneg then '-' else '+') :: eds := by
      rw [List.dropWhile_cons, if_pos hc0,
        dropWhile_append_cons _ _ _ _ hipd2 (by decide)]
    by_cases hneg : neg = true <;> by_cases heneg : eneg = true
    · simp only [if_pos hneg, if_pos heneg, List.cons_append, List.nil_append]
      simp only [if_pos heneg] at htake hdrop
      simp only [floatVal?, floatSignMatch_minus]
      rw [htake, hdrop]
      rw [floatMantMatch_e]
      simp only [if_neg (List.cons_ne_nil c0 ip2), if_pos he,
        floatExpSignMatch_minus, if_pos hcond, hdig0]
      norm_num
    · simp only [if_pos hneg, if_neg heneg, List.cons_append, List.nil_append]
      simp only [if_neg heneg] at htake hdrop
      simp only [floatVal?, floatSignMatch_minus]
      rw [htake, hdrop]
      rw [floatMantMatch_e]
      simp only [if_neg (List.cons_ne_nil c0 ip2), if_pos he,
        floatExpSignMatch_plus, if_pos hcond, hdig0]
      norm_num
    · simp only [if_neg hneg, if_pos heneg, List.cons_append, List.nil_append]
      simp only [if_pos heneg] at htake hdrop
      simp only [floatVal?, floatSignMatch_digit c0 _ hc0]
      rw [htake, hdrop]
      rw [floatMantMatch_e]
      simp only [if_neg (List.cons_ne_nil c0 ip2), if_pos he,
        floatExpSignMatch_minus, if_pos hcond, hdig0]
      norm_num
    · simp only [if_neg hneg, if_neg heneg, List.cons_append, List.nil_append]
      simp only [if_neg heneg] at htake hdrop
      simp only [floatVal?, floatSignMatch_digit c0 _ hc0]
      rw [htake, hdrop]
      rw [floatMantMatch_e]
      simp only [if_neg (List.cons_ne_nil c0 ip2), if_pos he,
        floatExpSignMatch_plus, if_pos hcond, hdig0]
      norm_num
  · have htake : List.takeWhile (fun x => x.isDigit)
        (c0 :: (ip2 ++ '.' :: (fp ++ 'e' :: (if eneg then '-' else '+') :: eds)))
        = c0 :: ip2 := by
      rw [List.takeWhile_cons, if_pos hc0,
        takeWhile_append_cons _ _ _ _ hipd2 (by decide)]
    have hdrop : List.dropWhile (fun x => x.isDigit)
        (c0 :: (ip2 ++ '.' :: (fp ++ 'e' :: (if eneg then '-' else '+') :: eds)))
        = '.' :: (fp ++ 'e' :: (if eneg then '-' else '+') :: eds) := by
      rw [List.dropWhile_cons, if_pos hc0,
        dropWhile_append_cons _ _ _ _ hipd2 (by decide)]
    have htfp : List.takeWhile (fun x => x.isDigit)
        (fp ++ 'e' :: (if eneg then '-' else '+') :: eds) = fp :=
      takeWhile_append_cons _ _ _ _ hfpd (by decide)
    have hdfp : List.dropWhile (fun x => x.isDigit)
        (fp ++ 'e' :: (if eneg then '-' else '+') :: eds)
        = 'e' :: (if eneg then '-' else '+') :: eds :=
      dropWhile_append_cons _ _ _ _ hfpd (by decide)
    by_cases hneg : neg = true <;> by_cases heneg : eneg = true
    · simp only [if_pos hneg, if_pos heneg, if_neg hfp, List.cons_append,
        List.nil_append, List.append_assoc]
      simp only [if_pos heneg] at htake hdrop htfp hdfp
      simp only [floatVal?, floatSignMatch_minus]
      rw [htake, hdrop]
      simp only [htfp, hdfp, if_neg hfp, if_pos he, floatExpSignMatch_minus,
        if_pos hcond]
      norm_num
    · simp only [if_pos hneg, if_neg heneg, if_neg hfp, List.cons_append,
        List.nil_append, List.append_assoc]
      simp only [if_neg heneg] at htake hdrop htfp hdfp
      simp only [floatVal?, floatSignMatch_minus]
      rw [htake, hdrop]
      simp only [htfp, hdfp, if_neg hfp, if_pos he, floatExpSignMatch_plus,
        if_pos hcond]
      norm_num
    · simp only [if_neg hneg, if_pos heneg, if_neg hfp, List.cons_append,
        List.nil_append, List.append_assoc]
      simp only [if_pos heneg] at htake hdrop htfp hdfp
      simp only [floatVal?, floatSignMatch_digit c0 _ hc0]
      rw [htake, hdrop]
      simp only [htfp, hdfp, if_neg hfp, if_pos he, floatExpSignMatch_minus,
        if_pos hcond]
      norm_num
    · simp only [if_neg hneg, if_neg heneg, if_neg hfp, List.cons_append,
        List.nil_append, List.append_assoc]
      simp only [if_neg heneg] at htake hdrop htfp hdfp
      simp only [floatVal?, floatSignMatch_digit c0 _ hc0]
      rw [htake, hdrop]
      simp only [htfp, hdfp, if_neg hfp, if_pos he, floatExpSignMatch_plus,
        if_pos hcond]
      norm_num

/-- Any assembled 6-digit body (fixed or scientific notation) parses back to
the exact rounded value `M * 10 ^ (E - 5)`. -/
theorem g6Body_parse (M E : ℤ) (hM1 : (10 ^ 5 : ℤ) ≤ M) (hM2 : M < 10 ^ 6)
    (neg : Bool) :
    floatVal? ((if neg then ['-'] else [])
        ++ (if -4 ≤ E ∧ E < 6 then g6Fixed (natDigits M.toNat) E
            else g6Sci (natDigits M.toNat) E))
      = some ((if neg then (-1 : ℚ) else 1) * (M : ℚ) * (10 : ℚ) ^ (E - 5)) := by
  have hM0 : (0 : ℤ) ≤ M := le_trans (by norm_num) hM1
  have hMn1 : 10 ^ 5 ≤ M.toNat := by omega
  have hMn2 : M.toNat < 10 ^ 6 := by omega
  have hMpos : 0 < M.toNat := by omega
  obtain ⟨hdsv, hdsl0⟩ := natDigits_spec M.toNat
  have hlog : natLog10 M.toNat = 5 := natLog10_eq_of_bounds _ 5 hMn1 hMn2
  have hdsl : (natDigits M.toNat).length = 6 := by rw [hdsl0, hlog]
  have hdsd : ∀ c ∈ natDigits M.toNat, c.isDigit = true := natDigits_digits _
  have hMcast : (M : ℚ) = ((M.toNat : ℕ) : ℚ) := by
    exact_mod_cast (Int.toNat_of_nonneg hM0).symm
  set ds := natDigits M.toNat with hds
  by_cases hE : -4 ≤ E ∧ E < 6
  · rw [if_pos hE]
    by_cases hE0 : 0 ≤ E
    · -- fixed notation, nonnegative exponent
      have hEk : E = (E.toNat : ℤ) := (Int.toNat_of_nonneg hE0).symm
      have hk6 : E.toNat + 1 ≤ 6 := by omega
      set k := E.toNat + 1 with hkdef
      have hk1 : 1 ≤ k := by omega
      simp only [g6Fixed, if_pos hE0]
      set ip := ds.take k with hip_def
      set fp := dropTrailingZeros (ds.drop k) with hfp_def
      have hiplen : ip.length = k := by
        rw [hip_def, List.length_take, hdsl]
        omega
      have hipne : ip ≠ [] := by
        intro hnil
        rw [hnil] at hiplen
        simp at hiplen
        omega
      have hipd : ∀ c ∈ ip, c.isDigit = true :=
        fun c hc => hdsd c (List.take_subset _ _ hc)
      have hfpd : ∀ c ∈ fp, c.isDigit = true :=
        fun c hc => hdsd c (List.drop_subset _ _ (dropTrailingZeros_subset _ c hc))
      have hdroplen : (ds.drop k).length = 6 - k := by
        rw [List.length_drop, hdsl]
      obtain ⟨j, hj, hdvj⟩ := digitsVal_dtz (ds.drop k)
      rw [hdroplen] at hj
      have hsplitv : digitsVal ds
          = digitsVal ip * 10 ^ (6 - k) + digitsVal (ds.drop k) := by
        conv_lhs => rw [← List.take_append_drop k ds]
        rw [digitsVal_append, hdroplen]
      have hval : (digitsVal ip : ℚ) + (digitsVal fp : ℚ) / 10 ^ fp.length
          = (M : ℚ) * (10 : ℚ) ^ (E - 5) := by
        have hE5 : E - 5 = -(((6 - k : ℕ) : ℤ)) := by
          omega
        rw [hE5, zpow_neg, zpow_natCast, hMcast]
        have hkey : ((M.toNat : ℕ) : ℚ)
            = (digitsVal ip : ℚ) * 10 ^ (6 - k) + (digitsVal fp : ℚ) * 10 ^ j := by
          rw [← hdsv, hsplitv, hdvj]
          push_cast
          ring
        rw [hkey]
        have hpow : (10 : ℚ) ^ (6 - k) = 10 ^ fp.length * 10 ^ j := by
          rw [show (6 - k : ℕ) = fp.length + j from hj.symm, pow_add]
        rw [hpow]
        field_simp
        ring
      rw [← List.append_assoc, floatVal?_fixed neg ip fp hipne hipd hfpd, hval]
      rw [mul_assoc]
    · -- fixed notation, negative exponent
      push_neg at hE0
      simp only [g6Fixed, if_neg (not_le.mpr hE0)]
      set k := (-(E + 1)).toNat with hkdef
      have hkE : (k : ℤ) = -(E + 1) := Int.toNat_of_nonneg (by omega)
      set fp := dropTrailingZeros (List.replicate k '0' ++ ds) with hfp_def
      have hrepv : digitsVal (List.replicate k '0' ++ ds) = digitsVal ds := by
        rw [digitsVal_append, digitsVal_replicate_zero]
        omega
      have hreplen : (List.replicate k '0' ++ ds).length = k + 6 := by
        rw [List.length_append, List.length_replicate, hdsl]
      obtain ⟨j, hj, hdvj⟩ := digitsVal_dtz (List.replicate k '0' ++ ds)
      rw [hreplen] at hj
      have hfpne : fp ≠ [] := by
        apply dtz_ne_nil_of_pos
        rw [hrepv, hdsv]
        exact hMpos
      have hfpd : ∀ c ∈ fp, c.isDigit = true := by
        intro c hc
        rcases List.mem_append.mp (dropTrailingZeros_subset _ c hc) with hc2 | hc2
        · rw [List.eq_of_mem_replicate hc2]
          decide
        · exact hdsd c hc2
      have hipd : ∀ c ∈ ['0'], c.isDigit = true := by
        intro c hc
        rw [List.mem_singleton.mp hc]
        decide
      have hval : (digitsVal ['0'] : ℚ) + (digitsVal fp : ℚ) / 10 ^ fp.length
          = (M : ℚ) * (10 : ℚ) ^ (E - 5) := by
        have hdv0 : digitsVal ['0'] = 0 := by
          rw [digitsVal_cons]
          simp [digitsVal]
        have hE5 : E - 5 = -(((k + 6 : ℕ) : ℤ)) := by
          push_cast
          omega
        rw [hdv0, hE5, zpow_neg, zpow_natCast, hMcast]
        have hkey : ((M.toNat : ℕ) : ℚ) = (digitsVal fp : ℚ) * 10 ^ j := by
          rw [← hdsv, ← hrepv, hdvj]
          push_cast [pow_succ]
          ring
        rw [hkey]
        have hpow : (10 : ℚ) ^ (k + 6) = 10 ^ fp.length * 10 ^ j := by
          rw [show (k + 6 : ℕ) = fp.length + j from hj.symm, pow_add]
        rw [hpow]
        field_simp
        ring
      have hshape : ('0' :: '.' :: fp : List Char)
          = ['0'] ++ (if fp = [] then [] else '.' :: fp) := by
        rw [if_neg hfpne]
        rfl
      rw [hshape, ← List.append_assoc,
        floatVal?_fixed neg ['0'] fp (by simp) hipd hfpd, hval]
      rw [mul_assoc]
  · rw [if_neg hE]
    -- scientific notation
    obtain ⟨d, rest, hdsplit⟩ : ∃ d rest, ds = d :: rest := by
      cases hd0 : ds with
      | nil => rw [hd0] at hdsl; simp at hdsl
      | cons d rest => exact ⟨d, rest, rfl⟩
    have hrestlen : rest.length = 5 := by
      have := hdsl
      rw [hdsplit] at this
      simp at this
      omega
    have hrestd : ∀ c ∈ rest, c.isDigit = true := by
      intro c hc
      exact hdsd c (by rw [hdsplit]; exact List.mem_cons_of_mem d hc)
    have hd_digit : d.isDigit = true := hdsd d (by rw [hdsplit]; exact List.mem_cons_self _ _)
    rw [hdsplit]
    simp only [g6Sci]
    set fp := dropTrailingZeros rest with hfp_def
    set eds0 := natDigits E.natAbs with heds0
    set eds := if eds0.length < 2 then '0' :: eds0 else eds0 with hedsdef
    have heds0d : ∀ c ∈ eds0, c.isDigit = true := natDigits_digits _
    have hedsd : ∀ c ∈ eds, c.isDigit = true := by
      intro c hc
      rw [hedsdef] at hc
      split at hc
      · rcases List.mem_cons.mp hc with rfl | hc
        · decide
        · exact heds0d c hc
      · exact heds0d c hc
    have hedsne : eds ≠ [] := by
      rw [hedsdef]
      split
      · simp
      · exact natDigits_ne_nil _
    have hedsv : digitsVal eds = E.natAbs := by
      have h0 : digitsVal eds0 = E.natAbs := (natDigits_spec _).1
      rw [hedsdef]
      split
      · rw [digitsVal_cons]
        simp [h0]
      · exact h0
    obtain ⟨j, hj, hdvj⟩ := digitsVal_dtz rest
    rw [hrestlen] at hj
    have hfpd : ∀ c ∈ fp, c.isDigit = true :=
      fun c hc => hrestd c (dropTrailingZeros_subset _ c hc)
    have hdval : digitsVal (d :: rest) = (d.toNat - '0'.toNat) * 10 ^ 5 + digitsVal rest := by
      rw [digitsVal_cons, hrestlen]
    have hmant : (digitsVal [d] : ℚ) + (digitsVal fp : ℚ) / 10 ^ fp.length
        = ((M.toNat : ℕ) : ℚ) / 10 ^ 5 := by
      have hd1 : digitsVal [d] = d.toNat - '0'.toNat := by
        rw [digitsVal_cons]
        simp [digitsVal]
      have hkey : ((M.toNat : ℕ) : ℚ)
          = (digitsVal [d] : ℚ) * 10 ^ 5 + (digitsVal fp : ℚ) * 10 ^ j := by
        rw [← hdsv, hdsplit, hdval, hdvj, hd1]
        push_cast
        ring
      rw [hkey]
      have hpow : (10 : ℚ) ^ 5 = 10 ^ fp.length * 10 ^ j := by
        rw [show (5 : ℕ) = fp.length + j from hj.symm, pow_add]
      rw [hpow]
      field_simp
      ring
    have hEcases : E < -4 ∨ 6 ≤ E := by
      rcases not_and_or.mp hE with h | h
      · left; omega
      · right; omega
    by_cases hEneg : E < 0
    · have hshape : ((d :: if fp = [] then [] else '.' :: fp)
          ++ 'e' :: (if E < 0 then '-' else '+') :: eds : List Char)
          = ([d] ++ (if fp = [] then [] else '.' :: fp))
              ++ 'e' :: (if true then '-' else '+') :: eds := by
        rw [if_pos hEneg]
        rfl
      rw [hshape, ← List.append_assoc, ← List.append_assoc]
      have := floatVal?_sci neg [d] fp true eds (by simp)
        (by intro c hc; rw [List.mem_singleton.mp hc]; exact hd_digit)
        hfpd hedsne hedsd
      rw [List.append_assoc ((if neg then ['-'] else []) : List Char) [d]] at this
      rw [← List.append_assoc] at this
      have hE5 : (10 : ℚ) ^ (E - 5) = (1 / 10 ^ E.natAbs) / 10 ^ 5 := by
        rw [show E - 5 = -((E.natAbs : ℤ)) + -((5 : ℕ) : ℤ) by omega,
          zpow_add₀ (by norm_num : (10 : ℚ) ≠ 0), zpow_neg, zpow_neg,
          zpow_natCast, zpow_natCast]
        rw [one_div]
        ring
      rw [this, hedsv, hmant, hMcast, hE5]
      norm_num
      ring_nf
    · have hE6 : 6 ≤ E := by omega
      have hshape : ((d :: if fp = [] then [] else '.' :: fp)
          ++ 'e' :: (if E < 0 then '-' else '+') :: eds : List Char)
          = ([d] ++ (if fp = [] then [] else '.' :: fp))
              ++ 'e' :: (if false then '-' else '+') :: eds := by
        rw [if_neg hEneg]
        rfl
      rw [hshape, ← List.append_assoc, ← List.append_assoc]
      have := floatVal?_sci neg [d] fp false eds (by simp)
        (by intro c hc; rw [List.mem_singleton.mp hc]; exact hd_digit)
        hfpd hedsne hedsd
      rw [List.append_assoc ((if neg then ['-'] else []) : List Char) [d]] at this
      rw [← List.append_assoc] at this
      have hE5 : (10 : ℚ) ^ (E - 5) = ((10 : ℚ) ^ E.natAbs) / 10 ^ 5 := by
        rw [show E - 5 = ((E.natAbs : ℤ)) + -((5 : ℕ) : ℤ) by omega,
          zpow_add₀ (by norm_num : (10 : ℚ) ≠ 0), zpow_neg,
          zpow_natCast, zpow_natCast]
        ring
      rw [this, hedsv, hmant, hMcast, hE5]
      norm_num
      ring_nf

theorem pyStrip_eq_self_of_all (l : List Char) (hne : l ≠ [])
    (h : ∀ c ∈ l, isWs c = false) : pyStrip l = l := by
  apply pyStrip_eq_self
  · intro c hc
    cases l with
    | nil => cases hc
    | cons a t =>
        rw [show (a :: t : List Char).head? = some a from rfl] at hc
        cases hc
        exact h _ (List.mem_cons_self _ _)
  · intro c hc
    rw [← List.head?_reverse] at hc
    cases hr : l.reverse with
    | nil => rw [hr] at hc; cases hc
    | cons a t =>
        rw [hr] at hc
        rw [show (a :: t : List Char).head? = some a from rfl] at hc
        cases hc
        refine h _ (List.mem_reverse.mp ?_)
        rw [hr]
        exact List.mem_cons_self _ _

/-- The serialized form of any nonzero rational parses back to the exactly
rounded value `±(roundHalfEven (|x|·10^(5−e0)))·10^(e0−5)`. -/
theorem formatG6_parse (x : ℚ) (hx : x ≠ 0) :
    floatParse (formatG6 x).data
      = .ok ((if x < 0 then (-1 : ℚ) else 1)
          * ((roundHalfEven (|x| * (10 : ℚ) ^ ((5 : ℤ) - qLog10 |x|)) : ℤ) : ℚ)
          * (10 : ℚ) ^ (qLog10 |x| - 5)) := by
  have ha : 0 < |x| := abs_pos.mpr hx
  obtain ⟨hq1, hq2⟩ := qLog10_spec |x| ha
  have htenne : (10 : ℚ) ≠ 0 := by norm_num
  set e0 := qLog10 |x| with he0def
  set scaled := |x| * (10 : ℚ) ^ ((5 : ℤ) - e0) with hscdef
  set m0 := roundHalfEven scaled with hm0def
  have hzpos : (0 : ℚ) < (10 : ℚ) ^ ((5 : ℤ) - e0) := zpow_pos (by norm_num) _
  have hsc1 : (100000 : ℚ) ≤ scaled := by
    have step : (10 : ℚ) ^ e0 * (10 : ℚ) ^ ((5 : ℤ) - e0) ≤ scaled := by
      rw [hscdef]
      exact mul_le_mul_of_nonneg_right hq1 hzpos.le
    calc (100000 : ℚ) = (10 : ℚ) ^ (5 : ℤ) := by norm_num
      _ = (10 : ℚ) ^ e0 * (10 : ℚ) ^ ((5 : ℤ) - e0) := by
          rw [← zpow_add₀ htenne]
          congr 1
          ring
      _ ≤ scaled := step
  have hsc2 : scaled < (1000000 : ℚ) := by
    have step : scaled < (10 : ℚ) ^ (e0 + 1) * (10 : ℚ) ^ ((5 : ℤ) - e0) := by
      rw [hscdef]
      exact mul_lt_mul_of_pos_right hq2 hzpos
    calc scaled < (10 : ℚ) ^ (e0 + 1) * (10 : ℚ) ^ ((5 : ℤ) - e0) := step
      _ = (10 : ℚ) ^ (6 : ℤ) := by
          rw [← zpow_add₀ htenne]
          congr 1
          ring
      _ = (1000000 : ℚ) := by norm_num
  have hfl : (100000 : ℤ) ≤ ⌊scaled⌋ := Int.le_floor.mpr (by exact_mod_cast hsc1)
  have hfu : ⌊scaled⌋ < 1000000 := Int.floor_lt.mpr (by exact_mod_cast hsc2)
  obtain ⟨hr1, hr2⟩ := roundHalfEven_floor_bounds scaled
  have hm1 : (100000 : ℤ) ≤ m0 := le_trans hfl hr1
  have hm2 : m0 ≤ 1000000 := le_trans hr2 (by omega)
  by_cases hren : m0 = 10 ^ 6
  · have hfmt : (formatG6 x).data
        = (if x < 0 then ['-'] else [])
          ++ (if -4 ≤ e0 + 1 ∧ e0 + 1 < 6
              then g6Fixed (natDigits ((10 ^ 5 : ℤ)).toNat) (e0 + 1)
              else g6Sci (natDigits ((10 ^ 5 : ℤ)).toNat) (e0 + 1)) := by
      simp only [formatG6, if_neg hx]
      rw [← he0def, ← hscdef, ← hm0def, if_pos hren]
    have hvaleq : (((10 ^ 5 : ℤ)) : ℚ) * (10 : ℚ) ^ (e0 + 1 - 5)
        = (m0 : ℚ) * (10 : ℚ) ^ (e0 - 5) := by
      rw [hren]
      push_cast
      rw [show (e0 + 1 - 5) = (e0 - 5) + 1 by ring, zpow_add₀ htenne]
      norm_num
      ring
    have hbp := g6Body_parse (10 ^ 5) (e0 + 1) (by norm_num) (by norm_num)
    by_cases hxn : x < 0
    · rw [hfmt]
      simp only [if_pos hxn]
      have hfacts := g6Assembled_facts ['-'] (by intro c hc; rw [List.mem_singleton.mp hc]; rfl)
        (natDigits ((10 ^ 5 : ℤ)).toNat) (natDigits_ne_nil _) (natDigits_digits _) (e0 + 1)
      have hstrip := pyStrip_eq_self_of_all _ hfacts.1
        (fun c hc => isNumChar_not_ws c (hfacts.2 c hc))
      simp only [floatParse, hstrip]
      rw [show (['-'] : List Char) ++ (if -4 ≤ e0 + 1 ∧ e0 + 1 < 6
            then g6Fixed (natDigits ((10 ^ 5 : ℤ)).toNat) (e0 + 1)
            else g6Sci (natDigits ((10 ^ 5 : ℤ)).toNat) (e0 + 1))
          = (if (true : Bool) then ['-'] else [])
            ++ (if -4 ≤ e0 + 1 ∧ e0 + 1 < 6
                then g6Fixed (natDigits ((10 ^ 5 : ℤ)).toNat) (e0 + 1)
                else g6Sci (natDigits ((10 ^ 5 : ℤ)).toNat) (e0 + 1)) from rfl]
      rw [hbp true]
      simp only [Except.ok.injEq, if_true, Bool.false_eq_true, if_false]
      linear_combination (-1 : ℚ) * hvaleq
    · have hfacts := g6Assembled_facts [] (by intro c hc; cases hc)
        (natDigits ((10 ^ 5 : ℤ)).toNat) (natDigits_ne_nil _) (natDigits_digits _) (e0 + 1)
      have hstrip := pyStrip_eq_self_of_all _ hfacts.1
        (fun c hc => isNumChar_not_ws c (hfacts.2 c hc))
      rw [hfmt]
      simp only [if_neg hxn]
      simp only [floatParse, hstrip]
      rw [show (([] : List Char)) ++ (if -4 ≤ e0 + 1 ∧ e0 + 1 < 6
            then g6Fixed (natDigits ((10 ^ 5 : ℤ)).toNat) (e0 + 1)
            else g6Sci (natDigits ((10 ^ 5 : ℤ)).toNat) (e0 + 1))
          = (if (false : Bool) then ['-'] else [])
            ++ (if -4 ≤ e0 + 1 ∧ e0 + 1 < 6
                then g6Fixed (natDigits ((10 ^ 5 : ℤ)).toNat) (e0 + 1)
                else g6Sci (natDigits ((10 ^ 5 : ℤ)).toNat) (e0 + 1)) from rfl]
      rw [hbp false]
      simp only [Except.ok.injEq, if_true, Bool.false_eq_true, if_false]
      linear_combination hvaleq
  · have hm2s : m0 < 10 ^ 6 := lt_of_le_of_ne (by omega) hren
    have hfmt : (formatG6 x).data
        = (if x < 0 then ['-'] else [])
          ++ (if -4 ≤ e0 ∧ e0 < 6
              then g6Fixed (natDigits m0.toNat) e0
              else g6Sci (natDigits m0.toNat) e0) := by
      simp only [formatG6, if_neg hx]
      rw [← he0def, ← hscdef, ← hm0def, if_neg hren]
    have hbp := g6Body_parse m0 e0 (by omega) (by omega)
    by_cases hxn : x < 0
    · have hfacts := g6Assembled_facts ['-'] (by intro c hc; rw [List.mem_singleton.mp hc]; rfl)
        (natDigits m0.toNat) (natDigits_ne_nil _) (natDigits_digits _) e0
      have hstrip := pyStrip_eq_self_of_all _ hfacts.1
        (fun c hc => isNumChar_not_ws c (hfacts.2 c hc))
      rw [hfmt]
      simp only [if_pos hxn]
      simp only [floatParse, hstrip]
      rw [show (['-'] : List Char) ++ (if -4 ≤ e0 ∧ e0 < 6
            then g6Fixed (natDigits m0.toNat) e0
            else g6Sci (natDigits m0.toNat) e0)
          = (if (true : Bool) then ['-'] else [])
            ++ (if -4 ≤ e0 ∧ e0 < 6
                then g6Fixed (natDigits m0.toNat) e0
                else g6Sci (natDigits m0.toNat) e0) from rfl]
      rw [hbp true]
      simp only [Except.ok.injEq, if_true, Bool.false_eq_true, if_false]
    · have hfacts := g6Assembled_facts [] (by intro c hc; cases hc)
        (natDigits m0.toNat) (natDigits_ne_nil _) (natDigits_digits _) e0
      have hstrip := pyStrip_eq_self_of_all _ hfacts.1
        (fun c hc => isNumChar_not_ws c (hfacts.2 c hc))
      rw [hfmt]
      simp only [if_neg hxn]
      simp only [floatParse, hstrip]
      rw [show (([] : List Char)) ++ (if -4 ≤ e0 ∧ e0 < 6
            then g6Fixed (natDigits m0.toNat) e0
            else g6Sci (natDigits m0.toNat) e0)
          = (if (false : Bool) then ['-'] else [])
            ++ (if -4 ≤ e0 ∧ e0 < 6
                then g6Fixed (natDigits m0.toNat) e0
                else g6Sci (natDigits m0.toNat) e0) from rfl]
      rw [hbp false]
      simp only [Except.ok.injEq, if_true, Bool.false_eq_true, if_false]

/-- C6: the float serializer emits 6-significant-digit shortest forms
(`1` for `1.0`, `1.2` for `1.2`, `1.5` for `1.50`), and decoding the
serialization of any value recovers it within that precision: the decoded
value differs from the original by at most half a unit in the sixth
significant digit. -/
theorem c6_float_six_sig_digits :
    floatSerialize 1 = "1" ∧ floatSerialize (6 / 5) = "1.2" ∧
    floatSerialize (3 / 2) = "1.5" ∧
    ∀ x : ℚ, ∃ q', floatParse (floatSerialize x).data = .ok q' ∧
      |q' - x| ≤ 1 / 2 * (10 : ℚ) ^ (qLog10 |x| - 5) := by
  refine ⟨by with_unfolding_all rfl, by with_unfolding_all rfl,
    by with_unfolding_all rfl, ?_⟩
  intro x
  by_cases hx : x = 0
  · subst hx
    refine ⟨0, by with_unfolding_all rfl, ?_⟩
    rw [sub_self, abs_zero]
    positivity
  · refine ⟨_, formatG6_parse x hx, ?_⟩
    have htenne : (10 : ℚ) ≠ 0 := by norm_num
    set e0 := qLog10 |x| with he0
    set scaled := |x| * (10 : ℚ) ^ ((5 : ℤ) - e0) with hsc
    set m0 := roundHalfEven scaled with hm0
    have hsx : (if x < 0 then (-1 : ℚ) else 1) * (m0 : ℚ) * (10 : ℚ) ^ (e0 - 5) - x
        = (if x < 0 then (-1 : ℚ) else 1) * ((m0 : ℚ) * (10 : ℚ) ^ (e0 - 5) - |x|) := by
      by_cases hxn : x < 0
      · rw [if_pos hxn, abs_of_neg hxn]
        ring
      · rw [if_neg hxn, abs_of_nonneg (not_lt.mp hxn)]
        ring
    rw [hsx, abs_mul]
    have habs1 : |(if x < 0 then (-1 : ℚ) else 1)| = 1 := by
      by_cases hxn : x < 0
      · rw [if_pos hxn]
        norm_num
      · rw [if_neg hxn]
        norm_num
    rw [habs1, one_mul]
    have hxval : |x| = scaled * (10 : ℚ) ^ (e0 - 5) := by
      rw [hsc, mul_assoc, ← zpow_add₀ htenne,
        show ((5 : ℤ) - e0) + (e0 - 5) = 0 by ring, zpow_zero, mul_one]
    have hsplit : (m0 : ℚ) * (10 : ℚ) ^ (e0 - 5) - |x|
        = ((m0 : ℚ) - scaled) * (10 : ℚ) ^ (e0 - 5) := by
      rw [hxval]
      ring
    rw [hsplit, abs_mul, abs_of_pos (zpow_pos (by norm_num : (0 : ℚ) < 10) _)]
    have hdist : |(m0 : ℚ) - scaled| ≤ 1 / 2 := by
      rw [hm0]
      exact roundHalfEven_dist scaled
    exact mul_le_mul_of_nonneg_right hdist (zpow_nonneg (by norm_num) _)


/-! ## Claim theorems -/

/-- C1 (code bug): `ShapeEncoder.encode` never returns the signature+body
string the claim describes: for every shape (and every indent unit),
`_ShapeSerializer.serialize` evaluates its final f-string, whose
`animations_block` name is unbound (encoder.py line 642), so encoding
raises `NameError` instead of producing text. -/
theorem c1_encode_always_raises (iu : String) (s : Shape) :
    shapeEncode iu s = .error (.nameError "animations_block") := rfl

/-- C4 (code bug): `_LightModelCfgParser.PATTERN` requires every `uv_op`
in the `uv_ops` block to carry exactly two integer arguments, so a
`light_model_cfg` whose uv_ops use the 1-parameter `uv_op_reflectmap`
variant — legal per the UVOp grammar and emitted by the serializer — fails
to decode with a format error, while the same block with a 2-parameter
`uv_op_copy` decodes fine. -/
theorem c4_lmc_rejects_non_two_arg_uvops :
    lightModelCfgParse
        "light_model_cfg ( 00000000 uv_ops ( 1 uv_op_reflectmap ( 0 ) ) )".data
      = .error (.invalidFormat "light_model_cfg") ∧
    lightModelCfgParse
        "light_model_cfg ( 00000000 uv_ops ( 1 uv_op_copy ( 0 1 ) ) )".data
      = .ok ⟨"00000000", [.copy 0 1]⟩ := ⟨rfl, rfl⟩

/-- C7 counterexample: the hex decode does not reject every fragment other
than an 8-hex-digit string — `" ABCDEF12"` (9 characters, leading space)
is accepted because `_HexParser.parse` strips the fragment before the
`fullmatch`. -/
theorem c7_hex_counterexample :
    hexParse " ABCDEF12".data = .ok "abcdef12".data ∧
    ¬(" ABCDEF12".data.length = 8 ∧ " ABCDEF12".data.all isHexDigit = true) := by
  exact ⟨rfl, by decide⟩

/-- C7 (amended): on ASCII fragments, decode accepts exactly the fragments
whose whitespace-stripped form is 8 hex digits (any case); the decoded
value is the lowercased stripped fragment, encode lowercases (so encode is
the identity on decode's output), and
`encode(decode("ABCDEF12")) = "abcdef12"`. -/
theorem c7_hex_codec_amended (s : List Char) (hascii : ∀ c ∈ s, c.toNat < 128) :
    ((∃ t, hexParse s = .ok t) ↔
      ((pyStrip s).length = 8 ∧ (pyStrip s).all isHexDigit = true)) ∧
    (∀ t, hexParse s = .ok t → hexSerialize (String.mk t) = String.mk t) ∧
    hexParse "ABCDEF12".data = .ok "abcdef12".data ∧
    hexSerialize "abcdef12" = "abcdef12" := by
  refine ⟨⟨?_, ?_⟩, ?_, rfl, rfl⟩
  · rintro ⟨t, ht⟩
    simp only [hexParse] at ht
    split at ht
    · rename_i hcond
      simpa [Bool.and_eq_true, decide_eq_true_eq] using hcond
    · exact Except.noConfusion ht
  · intro hrhs
    refine ⟨lowerAll (pyStrip s), ?_⟩
    have hcond : (decide ((pyStrip s).length = 8)
        && (pyStrip s).all isHexDigit) = true := by
      simp [hrhs.1, hrhs.2]
    simp only [hexParse, hcond, if_true]
  · intro t ht
    simp only [hexParse] at ht
    split at ht
    · cases ht
      unfold hexSerialize
      exact String.ext' (by simpa using lowerAll_idem (pyStrip s))
    · exact Except.noConfusion ht

/-- C7 witness. -/
theorem c7_hex_codec_amended_witness :
    (∃ t, hexParse "AbCdEf12".data = .ok t) ∧
    hexSerialize "abcdef12" = "abcdef12" := by
  have h := c7_hex_codec_amended "AbCdEf12".data (by decide)
  exact ⟨h.1.mpr (by decide), h.2.2.2⟩

/-- C9: serializing an empty item list collapses the header and the closer
onto the single line `name ( 0 )` preceded by the depth's indentation, for
every block name, depth, indent unit and layout-policy knob combination
(`items_per_line`, `count_multiplier`, `newline_after_header`,
`newline_before_closing`). -/
theorem c9_empty_list_collapses {T : Type} (iu : String) (blockName : String)
    (itemSer : T → Nat → String) (depth : Nat) (itemsPerLine : Option Nat)
    (countMultiplier : Int) (nlh nlbc : Bool) :
    serializeItemsInBlock iu ([] : List T) blockName itemSer depth itemsPerLine
        countMultiplier nlh nlbc
      = getIndent iu depth ++ blockName ++ " ( 0 )" := by
  have h0 : toString ((List.length ([] : List T) : Int) * countMultiplier) = "0" := by
    rw [show ((List.length ([] : List T) : Int) * countMultiplier) = 0 by simp]
    rfl
  unfold serializeItemsInBlock
  simp only [h0, List.isEmpty_nil, Bool.not_true, Bool.and_false, List.map_nil,
    sibLoop, if_neg (by simp : ¬((false : Bool) = true))]
  simp only [List.reverse_cons, List.reverse_nil, List.nil_append, sjoin]
  apply String.ext'
  simp [String.data_append, List.append_assoc]

/-- C5 counterexample: `is_compressed` is not a byte-prefix check on the
first 8 bytes.  A file consisting of exactly the bytes `SIMISA@@`
(sniffed as utf-8, decoding cleanly) yields `None`, not the `False` the
claim requires; and a file starting with the bytes `SIMISA@F` followed by
printable ASCII also decodes cleanly and yields `None`, not `True`. -/
theorem c5_is_compressed_counterexample :
    detectEncoding [0x53, 0x49, 0x4D, 0x49, 0x53, 0x41, 0x40, 0x40] = "utf-8" ∧
    isCompressedUtf8 [0x53, 0x49, 0x4D, 0x49, 0x53, 0x41, 0x40, 0x40] = none ∧
    detectEncoding [0x53, 0x49, 0x4D, 0x49, 0x53, 0x41, 0x40, 0x46, 0x20, 0x78]
      = "utf-8" ∧
    isCompressedUtf8 [0x53, 0x49, 0x4D, 0x49, 0x53, 0x41, 0x40, 0x46, 0x20, 0x78]
      = none := ⟨rfl, rfl, rfl, rfl⟩

/-- C5 (amended): for a file sniffed as utf-8, `is_compressed` decodes the
file as text and tests the first 32 characters against the full
30-character signature `SIMISA@@@@@@@@@@JINX0s1t______`: it returns
`False` exactly on a signature match, `None` when the text decodes but
does not carry the signature, and `True` exactly when text decoding
fails. -/
theorem c5_is_compressed_amended (bytes : List Nat)
    (henc : detectEncoding bytes = "utf-8") :
    (∀ t, utf8Decode bytes = some t →
      isCompressedUtf8 bytes
        = (if List.isPrefixOf plainSignature (t.take 32) then some false else none)) ∧
    (utf8Decode bytes = none → isCompressedUtf8 bytes = some true) := by
  constructor
  · intro t ht
    unfold isCompressedUtf8
    rw [ht]
  · intro h
    unfold isCompressedUtf8
    rw [h]

/-- C5 witness. -/
theorem c5_is_compressed_amended_witness :
    isCompressedUtf8 (plainSignature.map Char.toNat) = some false := by
  have h := (c5_is_compressed_amended (plainSignature.map Char.toNat) (by decide)).1
  rw [h plainSignature (by decide)]
  decide

/-- C8: `_UVOpParser.parse` dispatches on the (lowercased) keyword suffix
and enforces each variant's exact arity: once the pattern phase has
extracted a suffix and integer tokens, parsing succeeds exactly when the
(suffix, argument count) pair is one of (copy, 2), (reflectmapfull, 1),
(reflectmap, 1), (uniformscale, 4), (nonuniformscale, 4); in particular
`uv_op_copy ( 1 2 3 )` raises an arity error. -/
theorem c8_uvop_arity_enforcement (t sfx : List Char) (toks : List (List Char))
    (vals : List Int) (hscan : uvOpScan t = some (sfx, toks))
    (hvals : mapME intParse toks = .ok vals) :
    ((∃ op, uvOpParse t = .ok op) ↔
      ((String.mk sfx = "copy" ∧ vals.length = 2) ∨
       (String.mk sfx = "reflectmapfull" ∧ vals.length = 1) ∨
       (String.mk sfx = "reflectmap" ∧ vals.length = 1) ∨
       (String.mk sfx = "uniformscale" ∧ vals.length = 4) ∨
       (String.mk sfx = "nonuniformscale" ∧ vals.length = 4))) ∧
    uvOpParse "uv_op_copy ( 1 2 3 )".data = .error (.arityMismatch "copy" 3) := by
  refine ⟨?_, rfl⟩
  unfold uvOpParse
  rw [hscan]
  simp only [bind, Except.bind, hvals]
  unfold uvOpDispatch
  split_ifs with h1 h2 h3 h4 h5 <;>
    [skip; skip; skip; skip; skip;
     simp [h1, h2, h3, h4, h5]] <;>
    rcases vals with _ | ⟨a, _ | ⟨b, _ | ⟨c, _ | ⟨d, _ | ⟨e, rest⟩⟩⟩⟩⟩ <;>
    simp_all

/-- C8 witness. -/
theorem c8_uvop_arity_enforcement_witness :
    ∃ op, uvOpParse "uv_op_reflectmap ( 7 )".data = .ok op := by
  have h := c8_uvop_arity_enforcement "uv_op_reflectmap ( 7 )".data
    "reflectmap".data [['7']] [7] rfl rfl
  exact h.1.mpr (Or.inr (Or.inr (Or.inl ⟨rfl, rfl⟩)))

/-- The list parser's behaviour is determined by its scanning phase: once
`listScan` yields a declared count and the item matches, `_ListParser.parse`
is the count comparison followed by the item-wise parse. -/
theorem listParse_eq_of_scan (name : List Char)
    (m : List Char → Option (List Char × List Char))
    (ip : List Char → Except PErr α) (text : List Char) (n : Nat)
    (ms : List (List Char)) (hscan : listScan name m text = some (n, ms)) :
    listParse name m ip text
      = if ms.length = n then mapME ip ms
        else .error (.countMismatch (String.mk name) n ms.length) := by
  simp only [listScan] at hscan
  simp only [listParse]
  cases hh : listHeaderMatch name (pyStrip text) with
  | none => simp [hh] at hscan
  | some p =>
      obtain ⟨count, afterHeader⟩ := p
      simp only [hh] at hscan ⊢
      cases hb : rlastParenIdx (pyStrip text) with
      | none => simp [hb] at hscan
      | some be =>
          simp only [hb, Option.some.injEq, Prod.mk.injEq] at hscan ⊢
          obtain ⟨rfl, rfl⟩ := hscan
          rfl

/-- C3: for the points list (representative list block), whenever the
header and body scan yields a declared count `n` and item matches `ms`,
decoding raises a count-mismatch error iff `ms.length ≠ n`, and otherwise
returns exactly the parsed items in body order (hence exactly `n` of
them). -/
theorem c3_list_count_mismatch (text : List Char) (n : Nat)
    (ms : List (List Char))
    (hscan : listScan "points".data (withTok pointMatch) text = some (n, ms)) :
    (ms.length ≠ n →
      listParse "points".data (withTok pointMatch) pointParse text
        = .error (.countMismatch "points" n ms.length)) ∧
    (∀ l, ms.length = n → mapME pointParse ms = .ok l →
      listParse "points".data (withTok pointMatch) pointParse text = .ok l
        ∧ l.length = n) := by
  have h := listParse_eq_of_scan "points".data (withTok pointMatch) pointParse
    text n ms hscan
  constructor
  · intro hne
    rw [h, if_neg hne]
  · intro l hlen hmap
    rw [h, if_pos hlen, hmap]
    exact ⟨rfl, by rw [mapME_ok_length pointParse _ _ hmap, hlen]⟩

/-- C3 witness: the spec's concrete scenario — a points block declaring
count 3 with only two point items raises the count mismatch, and the same
block with the correct count decodes to the two points in order. -/
theorem c3_list_count_mismatch_witness :
    listParse "points".data (withTok pointMatch) pointParse
        "points ( 3 point ( 1 2 3 ) point ( 4 5 6 ) )".data
      = .error (.countMismatch "points" 3 2) ∧
    listParse "points".data (withTok pointMatch) pointParse
        "points ( 2 point ( 1 2 3 ) point ( 4 5 6 ) )".data
      = .ok [⟨1, 2, 3⟩, ⟨4, 5, 6⟩] := by
  constructor
  · exact (c3_list_count_mismatch
      "points ( 3 point ( 1 2 3 ) point ( 4 5 6 ) )".data 3
      ["point ( 1 2 3 )".data, "point ( 4 5 6 )".data] rfl).1 (by decide)
  · exact ((c3_list_count_mismatch
      "points ( 2 point ( 1 2 3 ) point ( 4 5 6 ) )".data 2
      ["point ( 1 2 3 )".data, "point ( 4 5 6 )".data] rfl).2
      [⟨1, 2, 3⟩, ⟨4, 5, 6⟩] rfl (by with_unfolding_all rfl)).1

/-- The vector pattern applied to a serializer-shaped text
`vector ( A B C )` captures exactly the three rendered fragments. -/
theorem vectorMatch_serialized (a b c : List Char)
    (ha : a ≠ []) (ha' : ∀ ch ∈ a, isNumChar ch = true)
    (hb : b ≠ []) (hb' : ∀ ch ∈ b, isNumChar ch = true)
    (hc : c ≠ []) (hc' : ∀ ch ∈ c, isNumChar ch = true) :
    vectorMatch ('v' :: 'e' :: 'c' :: 't' :: 'o' :: 'r' :: ' ' :: '(' :: ' ' ::
        (a ++ ' ' :: (b ++ ' ' :: (c ++ [' ', ')']))))
      = some ((a, b, c), []) := by
  have hsp : isNumChar ' ' = false := rfl
  have e1 : eatLit false "vector".data
      ('v' :: 'e' :: 'c' :: 't' :: 'o' :: 'r' :: ' ' :: '(' :: ' ' ::
        (a ++ ' ' :: (b ++ ' ' :: (c ++ [' ', ')']))))
      = some (' ' :: '(' :: ' ' :: (a ++ ' ' :: (b ++ ' ' :: (c ++ [' ', ')'])))) := rfl
  have e2 : (' ' :: '(' :: ' ' :: (a ++ ' ' :: (b ++ ' ' :: (c ++ [' ', ')'])))).dropWhile
      isWs = '(' :: ' ' :: (a ++ ' ' :: (b ++ ' ' :: (c ++ [' ', ')']))) := rfl
  have e3 : eatChar '(' ('(' :: ' ' :: (a ++ ' ' :: (b ++ ' ' :: (c ++ [' ', ')']))))
      = some (' ' :: (a ++ ' ' :: (b ++ ' ' :: (c ++ [' ', ')'])))) := rfl
  have e4 : (' ' :: (a ++ ' ' :: (b ++ ' ' :: (c ++ [' ', ')'])))).dropWhile isWs
      = a ++ ' ' :: (b ++ ' ' :: (c ++ [' ', ')'])) := by
    cases a with
    | nil => exact absurd rfl ha
    | cons a0 l =>
        have h0 : isWs a0 = false :=
          isNumChar_not_ws a0 (ha' a0 (List.mem_cons_self _ _))
        simp [List.dropWhile_cons, h0, show isWs ' ' = true from rfl]
  have hga := eatClassPlus_token isNumChar a ' ' (b ++ ' ' :: (c ++ [' ', ')'])) ha ha' hsp
  have hw1 := eatWsPlus_space_token b (' ' :: (c ++ [' ', ')'])) hb hb'
  have hgb := eatClassPlus_token isNumChar b ' ' (c ++ [' ', ')']) hb hb' hsp
  have hw2 := eatWsPlus_space_token c [' ', ')'] hc hc'
  have hgc : eatClassPlus isNumChar (c ++ [' ', ')']) = some (c, [' ', ')']) :=
    eatClassPlus_token isNumChar c ' ' [')'] hc hc' hsp
  unfold vectorMatch
  simp only [e1, e2, e3, e4, hga, hw1, hgb, hw2, hgc]
  rfl

/-- Decoding a serialized vector reduces to parsing its three rendered
components. -/
theorem vectorParse_serialized (iu : String) (x y z : ℚ) :
    vectorParse ((vectorSerialize iu ⟨x, y, z⟩ 0).data)
      = (match floatParse (formatG6 x).data with
         | .error e => .error e
         | .ok a =>
         match floatParse (formatG6 y).data with
         | .error e => .error e
         | .ok b =>
         match floatParse (formatG6 z).data with
         | .error e => .error e
         | .ok c => .ok ⟨a, b, c⟩) := by
  obtain ⟨hxne, hxall⟩ := formatG6_numChar x
  obtain ⟨hyne, hyall⟩ := formatG6_numChar y
  obtain ⟨hzne, hzall⟩ := formatG6_numChar z
  have hdata : (vectorSerialize iu ⟨x, y, z⟩ 0).data
      = 'v' :: 'e' :: 'c' :: 't' :: 'o' :: 'r' :: ' ' :: '(' :: ' ' ::
          ((formatG6 x).data ++ ' ' :: ((formatG6 y).data ++ ' ' ::
            ((formatG6 z).data ++ [' ', ')']))) := by
    show (getIndent iu 0 ++ "vector ( " ++ floatSerialize x ++ " "
        ++ floatSerialize y ++ " " ++ floatSerialize z ++ " )").data = _
    rw [show getIndent iu 0 = "" from rfl]
    simp only [String.data_append, List.append_assoc]
    rfl
  have hform2 : ('v' :: 'e' :: 'c' :: 't' :: 'o' :: 'r' :: ' ' :: '(' :: ' ' ::
        ((formatG6 x).data ++ ' ' :: ((formatG6 y).data ++ ' ' ::
          ((formatG6 z).data ++ [' ', ')']))))
      = ('v' :: 'e' :: 'c' :: 't' :: 'o' :: 'r' :: ' ' :: '(' :: ' ' ::
          ((formatG6 x).data ++ ' ' :: ((formatG6 y).data ++ ' ' ::
            ((formatG6 z).data ++ [' '])))) ++ [')'] := by
    simp [List.append_assoc]
  have hstrip : pyStrip ('v' :: 'e' :: 'c' :: 't' :: 'o' :: 'r' :: ' ' :: '(' :: ' ' ::
        ((formatG6 x).data ++ ' ' :: ((formatG6 y).data ++ ' ' ::
          ((formatG6 z).data ++ [' ', ')']))))
      = 'v' :: 'e' :: 'c' :: 't' :: 'o' :: 'r' :: ' ' :: '(' :: ' ' ::
          ((formatG6 x).data ++ ' ' :: ((formatG6 y).data ++ ' ' ::
            ((formatG6 z).data ++ [' ', ')']))) := by
    apply pyStrip_eq_self
    · intro ch hch
      rw [show ('v' :: 'e' :: 'c' :: 't' :: 'o' :: 'r' :: ' ' :: '(' :: ' ' ::
          ((formatG6 x).data ++ ' ' :: ((formatG6 y).data ++ ' ' ::
            ((formatG6 z).data ++ [' ', ')'])))).head? = some 'v' from rfl] at hch
      cases hch
      decide
    · intro ch hch
      rw [hform2, List.getLast?_concat] at hch
      cases hch
      decide
  unfold vectorParse
  rw [hdata, hstrip, vectorMatch_serialized (formatG6 x).data (formatG6 y).data
    (formatG6 z).data hxne hxall hyne hyall hzne hzall]
  cases hfx : floatParse (formatG6 x).data <;>
    cases hfy : floatParse (formatG6 y).data <;>
      cases hfz : floatParse (formatG6 z).data <;>
        simp [bind, Except.bind, pure, Except.pure, hfx, hfy, hfz]

set_option maxRecDepth 4000 in
/-- C2 counterexample: the round-trip law fails as stated — a `Vector`
whose component needs more than 6 significant digits decodes from its own
serialization to a different record (`0.1234567` is rendered `0.123457`
by the `%.6g` float serializer). -/
theorem c2_roundtrip_counterexample :
    vectorParse ((vectorSerialize "\t" ⟨1234567 / 10000000, 0, 0⟩ 0).data)
      = .ok ⟨123457 / 1000000, 0, 0⟩ ∧
    (⟨123457 / 1000000, 0, 0⟩ : Vector) ≠ ⟨1234567 / 10000000, 0, 0⟩ := by
  constructor
  · rw [vectorParse_serialized]
    have hg1 : formatG6 (1234567 / 10000000 : ℚ) = "0.123457" := by
      with_unfolding_all rfl
    have hg0 : formatG6 (0 : ℚ) = "0" := by
      with_unfolding_all rfl
    have h1 : floatParse ("0.123457" : String).data = .ok (123457 / 1000000) := by
      with_unfolding_all rfl
    have h0 : floatParse ("0" : String).data = .ok 0 := by
      with_unfolding_all rfl
    rw [hg1, hg0, h1, h0]
  · intro hcontra
    have hq : (123457 / 1000000 : ℚ) = 1234567 / 10000000 := congrArg Vector.x hcontra
    norm_num at hq

/-- C2 (amended): `decode(encode(r)) = r` holds for every `Vector` whose
three float components survive the 6-significant-digit serialization
(i.e. parsing the rendered component recovers the component exactly);
the counterexample shows the restriction is necessary. -/
theorem c2_vector_roundtrip_amended (iu : String) (x y z : ℚ)
    (hx : floatParse (formatG6 x).data = .ok x)
    (hy : floatParse (formatG6 y).data = .ok y)
    (hz : floatParse (formatG6 z).data = .ok z) :
    vectorParse ((vectorSerialize iu ⟨x, y, z⟩ 0).data) = .ok ⟨x, y, z⟩ := by
  rw [vectorParse_serialized, hx, hy, hz]

/-- C2 witness. -/
theorem c2_vector_roundtrip_amended_witness :
    vectorParse ((vectorSerialize "\t" ⟨3 / 2, 2, 3⟩ 0).data) = .ok ⟨3 / 2, 2, 3⟩ :=
  c2_vector_roundtrip_amended "\t" (3 / 2) 2 3 (by with_unfolding_all rfl)
    (by with_unfolding_all rfl) (by with_unfolding_all rfl)

/-- C10: whatever text the shape decoder accepts, the resulting `Shape`
always carries an empty `lod_controls` list and an empty `animations`
list — `_ShapeParser.parse` never invokes a parser for either block and
hard-wires both fields. -/
theorem c10_decoder_ignores_lod_and_animation (text : List Char) (s : Shape)
    (h : shapeParse text = .ok s) :
    s.lod_controls = [] ∧ s.animations = [] := by
  unfold shapeParse at h
  repeat' split at h
  all_goals first
    | exact Except.noConfusion h
    | (cases h; exact ⟨rfl, rfl⟩)

/-- C10 witness: a complete document with all tables empty decodes, and
the decoded record has empty `lod_controls` and `animations`. -/
theorem c10_decoder_ignores_lod_and_animation_witness :
    shapeParse exampleShapeText.data = .ok exampleShape ∧
    exampleShape.lod_controls = [] ∧ exampleShape.animations = [] := by
  have h : shapeParse exampleShapeText.data = .ok exampleShape := by
    with_unfolding_all rfl
  exact ⟨h, c10_decoder_ignores_lod_and_animation _ _ h⟩

end Shapeio
